import Mathlib

/-!
# Selection / clipboard engine of `x.cc`

A shallow embedding of the selection and clipboard handlers of `src/x.cc`
(`selnotify`, `propnotify`, `selrequest`, `xclipcopy`, `xsetsel`, `bpress`,
`brelease`, `getbuttoninfo`, `mousereport`) as pure functions on an explicit
program state, followed by theorems about them.

Conventions.
* Bytes, atoms, window ids, masks and pointers are natural numbers.
* The C heap is a list of blocks; a pointer is an index into it, a freed
  block is `none`, and `NULL` is `Option.none` at the place holding the pointer.
* A C string is the list of its bytes before the terminating NUL.
* Calls into Xlib are recorded, in order, in `State.xlog`.
* The loop of `selnotify`, whose termination depends on the display server,
  takes a fuel argument; its result is `none` only when the fuel runs out.
* The functions that free or read heap blocks return `none` exactly when they
  free or read a block that is not live (undefined behaviour in C).
* Declarations of the headers and functions of the terminal core, which are
  not part of `x.cc`, are modelled from the specification or taken as
  parameters (`Config`); each says so in its comment.
-/

namespace Mt

/-! ## X11 constants (from the X headers) -/

abbrev Atom := Nat
abbrev Window := Nat

/-- The X11 null resource id `None`. -/
def None : Nat := 0
/-- Predefined atom `XA_PRIMARY`. -/
def XA_PRIMARY : Atom := 1
/-- Predefined atom `XA_ATOM`. -/
def XA_ATOM : Atom := 4
/-- Predefined atom `XA_STRING`. -/
def XA_STRING : Atom := 31
/-- The value `CurrentTime` of the X protocol. -/
def CurrentTime : Nat := 0
/-- The value `PropertyNewValue` of a PropertyNotify state. -/
def PropertyNewValue : Nat := 0
/-- The value `PropModeReplace`. -/
def PropModeReplace : Nat := 0
/-- The event-mask bit `PropertyChangeMask` (1 << 22). -/
def PropertyChangeMask : Nat := 2 ^ 22
def Button1 : Nat := 1
def Button2 : Nat := 2
/-- Modifier mask bits of a button event state. -/
def ShiftMask : Nat := 1
def ControlMask : Nat := 4
def Mod4Mask : Nat := 64
def Button1Mask : Nat := 256

/-- Atoms obtained at run time: `XInternAtom` of "CLIPBOARD", "INCR" and
"TARGETS", and `xsel.xtarget` (set once in `xinit`). -/
structure Atoms where
  clipboard : Atom
  incr : Atom
  targets : Atom
  xtarget : Atom
  deriving DecidableEq, Repr

/-- Distinct names intern to distinct atoms, and none of them is a predefined
atom of another name. -/
def Atoms.WellFormed (a : Atoms) : Prop :=
  a.clipboard ≠ XA_PRIMARY ∧ a.targets ≠ a.xtarget ∧ a.targets ≠ XA_STRING

instance (a : Atoms) : Decidable a.WellFormed := by
  unfold Atoms.WellFormed; infer_instance

/-! ## Data model -/

/-- Modelled from the spec: a grid position (column `x`, row `y`), as the
fields `sel.ob`, `sel.oe`, `sel.nb`, `sel.ne` are used in `x.cc`. -/
structure Point where
  x : Int
  y : Int
  deriving DecidableEq, Repr

/-- Modelled from the spec: the selection mode (`SEL_IDLE`, `SEL_EMPTY`,
`SEL_READY`), declared outside `x.cc`; `IDLE` is the value 0 that `!sel.mode`
tests. -/
inductive SelMode where
  | IDLE
  | EMPTY
  | READY
  deriving DecidableEq, Repr

/-- Modelled from the spec: the selection snap (`SNAP_WORD`, `SNAP_LINE`),
declared outside `x.cc`; `NONE` is the value 0 that `sel.snap = 0` assigns. -/
inductive Snap where
  | NONE
  | WORD
  | LINE
  deriving DecidableEq, Repr

/-- Modelled from the spec: the selection type `SEL_REGULAR`, declared outside
`x.cc`; the further types are the indices `1 ..` of `selmasks` that
`getbuttoninfo` assigns. -/
def SEL_REGULAR : Nat := 1

/-- Modelled from the spec: the global `sel`, declared outside `x.cc`, with the
fields `x.cc` uses. `primary` and `clipboard` are heap pointers (`none` is
`NULL`); time stamps are in milliseconds. -/
structure Selection where
  mode : SelMode
  type : Nat
  snap : Snap
  nb : Point
  ne : Point
  ob : Point
  oe : Point
  primary : Option Nat
  clipboard : Option Nat
  alt : Bool
  tclick1 : Int
  tclick2 : Int
  deriving DecidableEq, Repr

/-- Modelled from the spec: the bits of `term.mode` that the handlers test with
`IS_SET`; the masks are declared outside `x.cc`. -/
structure TermMode where
  mousebtn : Bool
  mousemotion : Bool
  mousex10 : Bool
  mousemany : Bool
  mousesgr : Bool
  brcktpaste : Bool
  altscreen : Bool
  deriving DecidableEq, Repr

/-- A property stored on a window: type, format (8, 16 or 32) and value bytes. -/
structure Property where
  type : Atom
  format : Nat
  data : List Nat
  deriving DecidableEq, Repr

/-- The out-parameters of a successful `XGetWindowProperty`. -/
structure XReply where
  type : Atom
  format : Nat
  nitems : Nat
  rem : Nat
  data : List Nat
  deriving DecidableEq, Repr

/-- The event built by `selrequest` (`XSelectionEvent`). -/
structure XSelectionEvent where
  requestor : Window
  selection : Atom
  target : Atom
  time : Nat
  property : Atom
  deriving DecidableEq, Repr

/-- The fields of `XSelectionRequestEvent` that `selrequest` reads. -/
structure XSelectionRequestEvent where
  requestor : Window
  selection : Atom
  target : Atom
  time : Nat
  property : Atom
  deriving DecidableEq, Repr

/-- The fields of `XButtonEvent` that the mouse handlers read. -/
inductive ButtonEventType where
  | ButtonPress
  | ButtonRelease
  | MotionNotify
  deriving DecidableEq, Repr

structure XButtonEvent where
  type : ButtonEventType
  x : Int
  y : Int
  button : Nat
  state : Nat
  time : Nat
  deriving DecidableEq, Repr

/-- The events that reach `selnotify` and `propnotify`. -/
inductive XEvent where
  | SelectionNotify (property : Atom)
  | PropertyNotify (atom : Atom) (state : Nat)
  | Other
  deriving DecidableEq, Repr

/-- Calls issued to the display server, as recorded in `State.xlog`. -/
inductive XRequest where
  | ChangeWindowAttributes (event_mask : Nat)
  | DeleteProperty (property : Atom)
  | GetWindowProperty (property : Atom) (long_offset : Nat) (long_length : Nat)
  | ChangeProperty (w : Window) (property : Atom) (type : Atom) (format : Nat)
      (mode : Nat) (data : List Nat) (nelements : Nat)
  | SendEvent (w : Window) (ev : XSelectionEvent)
  | SetSelectionOwner (selection : Atom) (owner : Window) (time : Nat)
  | ConvertSelection (selection : Atom) (target : Atom) (property : Atom) (time : Nat)
  deriving DecidableEq, Repr

/-- Program state: the globals `sel`, `term.mode`, `term.dirty`,
`xw.attrs.event_mask`, `oldbutton` and the statics of `mousereport`, the heap,
the display server as seen from this client (properties of `xw.win`, selection
owners), and the output channels. -/
structure State where
  sel : Selection
  heap : List (Option (List Nat))
  mode : TermMode
  dirty : List Bool
  event_mask : Nat
  win : Window
  props : List (Atom × Property)
  owners : List (Atom × Window)
  xlog : List XRequest
  tty : List Nat
  oldbutton : Int
  ox : Int
  oy : Int
  deriving DecidableEq, Repr

/-! ## Process channel -/

/-- Modelled from the spec: `ttywrite` of the terminal core is not in `x.cc`;
it writes raw bytes to the process channel. -/
def ttywrite (s : State) (buf : List Nat) : State :=
  { s with tty := s.tty ++ buf }

/-- Modelled from the spec: `ttysend` of the terminal core is not in `x.cc`;
it forwards the bytes to the process channel. -/
def ttysend (s : State) (buf : List Nat) : State :=
  ttywrite s buf

/-- The paste-begin marker `"\033[200~"`. -/
def pasteBegin : List Nat := [27, 91, 50, 48, 48, 126]
/-- The paste-end marker `"\033[201~"`. -/
def pasteEnd : List Nat := [27, 91, 50, 48, 49, 126]

/-! ## Display server -/

/-- Macro `MODBIT(x, set, bit)`: set or clear `bit` in `x`. -/
def MODBIT (x : Nat) (set : Bool) (bit : Nat) : Nat :=
  if set then x ||| bit else x - (x &&& bit)

def XChangeWindowAttributes (s : State) : State :=
  { s with xlog := s.xlog ++ [XRequest.ChangeWindowAttributes s.event_mask] }

def XDeleteProperty (s : State) (property : Atom) : State :=
  { s with props := s.props.filter (fun p => p.1 != property),
           xlog := s.xlog ++ [XRequest.DeleteProperty property] }

/-- The display server's answer to `XGetWindowProperty` on `xw.win` as Xlib
documents it: with `N` the stored length in bytes, `I = 4 * long_offset` and
`L = min (N - I) (4 * long_length)`, the call fails when `I > N`, and otherwise
returns the `L` bytes from index `I` with `rem = N - (I + L)` bytes left. A
property that does not exist reads as type `None` with no data. -/
def XGetWindowProperty (props : List (Atom × Property)) (property : Atom)
    (long_offset long_length : Nat) : Option XReply :=
  match props.lookup property with
  | none => some ⟨None, 0, 0, 0, []⟩
  | some p =>
    if p.data.length < 4 * long_offset then none
    else
      let L := min (p.data.length - 4 * long_offset) (4 * long_length)
      some ⟨p.type, p.format, L / (p.format / 8),
            p.data.length - (4 * long_offset + L),
            (p.data.drop (4 * long_offset)).take L⟩

/-- The display server behind Xlib, for the two calls whose outcome the client
does not control. `getProperty props property long_offset long_length` is
`XGetWindowProperty` on `xw.win` (`none` is a non-zero status);
`setOwner owners selection owner time` is the owner table after
`XSetSelectionOwner`, which the server may refuse or another client may
overtake. -/
structure Server where
  getProperty : List (Atom × Property) → Atom → Nat → Nat → Option XReply
  setOwner : List (Atom × Window) → Atom → Window → Nat → List (Atom × Window)

/-- A server that reads properties as Xlib documents and grants every
ownership request. -/
def xserver : Server :=
  ⟨XGetWindowProperty,
   fun owners selection owner _ => (selection, owner) :: owners.filter (fun o => o.1 != selection)⟩

/-- A server on which every ownership request is lost to another client. -/
def xserverRace (other : Window) : Server :=
  ⟨XGetWindowProperty,
   fun owners selection _ _ => (selection, other) :: owners.filter (fun o => o.1 != selection)⟩

def XSetSelectionOwner (X : Server) (s : State) (selection : Atom) (owner : Window)
    (time : Nat) : State :=
  { s with owners := X.setOwner s.owners selection owner time,
           xlog := s.xlog ++ [XRequest.SetSelectionOwner selection owner time] }

/-- Xlib call `XGetSelectionOwner`; `None` when the selection has no owner. -/
def XGetSelectionOwner (s : State) (selection : Atom) : Window :=
  (s.owners.lookup selection).getD None

/-! ## Receiving a selection: `selnotify`, `propnotify` -/

/-- The call `std::replace(data, last, '\n', '\r')` on one byte. -/
def lf2cr (b : Nat) : Nat := if b = 10 then 13 else b

/-- The bytes `data[0 .. nitems * format / 8)` of a reply. -/
def XReply.bytes (r : XReply) : List Nat :=
  r.data.take (r.nitems * r.format / 8)

/-- The number of 32-bit units of a reply, `nitems * format / 32`. -/
def XReply.units (r : XReply) : Nat :=
  r.nitems * r.format / 32

/-- The `do { ... } while (rem > 0)` loop of `selnotify` followed, on normal
exit, by the final `XDeleteProperty`. `isPropertyNotify` is
`e->type == PropertyNotify`. A failed read returns at once. -/
def selnotifyLoop (X : Server) (BUFSIZ : Nat) (a : Atoms)
    (isPropertyNotify : Bool) (property : Atom) : Nat → Nat → State → Option State
  | 0, _, _ => none
  | fuel + 1, ofs, s =>
    let s := { s with xlog := s.xlog ++ [XRequest.GetWindowProperty property ofs (BUFSIZ / 4)] }
    match X.getProperty s.props property ofs (BUFSIZ / 4) with
    | none => some s
    | some r =>
      let s :=
        if isPropertyNotify && r.nitems == 0 && r.rem == 0 then
          XChangeWindowAttributes
            { s with event_mask := MODBIT s.event_mask false PropertyChangeMask }
        else s
      if r.type = a.incr then
        let s := XChangeWindowAttributes
          { s with event_mask := MODBIT s.event_mask true PropertyChangeMask }
        let s := XDeleteProperty s property
        -- `continue` jumps to the loop condition
        if r.rem > 0 then selnotifyLoop X BUFSIZ a isPropertyNotify property fuel ofs s
        else some (XDeleteProperty s property)
      else
        let data := r.bytes.map lf2cr
        let s := if s.mode.brcktpaste && ofs == 0 then ttywrite s pasteBegin else s
        let s := ttysend s data
        let s := if s.mode.brcktpaste && r.rem == 0 then ttywrite s pasteEnd else s
        let ofs := ofs + r.units
        if r.rem > 0 then selnotifyLoop X BUFSIZ a isPropertyNotify property fuel ofs s
        else some (XDeleteProperty s property)

/-- Source function `selnotify(e)`. -/
def selnotify (X : Server) (BUFSIZ : Nat) (a : Atoms) (fuel : Nat)
    (e : XEvent) (s : State) : Option State :=
  match e with
  | XEvent.SelectionNotify property =>
    if property = None then some s
    else selnotifyLoop X BUFSIZ a false property fuel 0 s
  | XEvent.PropertyNotify atom _ =>
    if atom = None then some s
    else selnotifyLoop X BUFSIZ a true atom fuel 0 s
  | XEvent.Other => some s

/-- Source function `propnotify(e)`; it is dispatched for PropertyNotify events only. -/
def propnotify (X : Server) (BUFSIZ : Nat) (a : Atoms) (fuel : Nat)
    (e : XEvent) (s : State) : Option State :=
  match e with
  | XEvent.PropertyNotify atom state =>
    if state = PropertyNewValue ∧ (atom = XA_PRIMARY ∨ atom = a.clipboard) then
      selnotify X BUFSIZ a fuel e s
    else some s
  | _ => some s

/-! ### A peer that sends a selection in chunks (INCR) -/

/-- The peer stores a value in a property of `xw.win`. -/
def peerStore (s : State) (property : Atom) (p : Property) : State :=
  { s with props := (property, p) :: s.props.filter (fun q => q.1 != property) }

/-- The peer delivers the chunks one at a time: it stores the chunk in the
property, which raises a PropertyNotify with state `PropertyNewValue`. -/
def incrChunks (BUFSIZ : Nat) (a : Atoms) (fuel : Nat) (property : Atom) :
    List (List Nat) → State → Option State
  | [], s => some s
  | c :: cs, s =>
    (propnotify xserver BUFSIZ a fuel
        (XEvent.PropertyNotify property PropertyNewValue)
        (peerStore s property ⟨a.xtarget, 8, c⟩)).bind
      (incrChunks BUFSIZ a fuel property cs)

/-- A whole chunked transfer: the peer announces chunked mode with a
SelectionNotify whose property has type INCR (a 32-bit size hint), delivers the
chunks, and ends with a zero-length value. -/
def incrTransfer (BUFSIZ : Nat) (a : Atoms) (fuel : Nat) (property : Atom)
    (chunks : List (List Nat)) (s : State) : Option State :=
  (selnotify xserver BUFSIZ a fuel (XEvent.SelectionNotify property)
      (peerStore s property ⟨a.incr, 32, [0, 0, 0, 0]⟩)).bind fun s1 =>
  (incrChunks BUFSIZ a fuel property chunks s1).bind fun s2 =>
  propnotify xserver BUFSIZ a fuel
    (XEvent.PropertyNotify property PropertyNewValue)
    (peerStore s2 property ⟨a.xtarget, 8, []⟩)

/-- What the chunked round trip is specified to write: the concatenation of the
chunks with line feeds replaced, wrapped once when bracketed paste is set. -/
def incrExpected (brcktpaste : Bool) (chunks : List (List Nat)) : List Nat :=
  (if brcktpaste then pasteBegin else []) ++ (chunks.flatten.map lf2cr) ++
  (if brcktpaste then pasteEnd else [])

/-! ## Heap -/

/-- The call `free(p)` for a non-null `p`: the block must be live (`none` is the undefined
behaviour of freeing a dangling or foreign pointer). -/
def free (heap : List (Option (List Nat))) (p : Nat) : Option (List (Option (List Nat))) :=
  match heap[p]? with
  | some (some _) => some (heap.set p none)
  | _ => none

/-- The C string a pointer refers to; `none` when the block is not live. -/
def deref (heap : List (Option (List Nat))) (p : Nat) : Option (List Nat) :=
  heap[p]?.join

/-- Allocate a fresh block holding `str`; the new heap and the new pointer. -/
def alloc (heap : List (Option (List Nat))) (str : List Nat) :
    List (Option (List Nat)) × Nat :=
  (heap ++ [some str], heap.length)

/-- Modelled from the spec: `xstrdup` of the terminal core is not in `x.cc`; it
duplicates a C string into a newly allocated block. Reading a block that is
not live is undefined (`none`). -/
def xstrdup (heap : List (Option (List Nat))) (p : Nat) :
    Option (List (Option (List Nat)) × Nat) :=
  (deref heap p).map (alloc heap)

/-- The byte string held by a buffer pointer: `none` for `NULL` and for a
pointer whose block is not live. -/
def bufferText (s : State) (buf : Option Nat) : Option (List Nat) :=
  buf.bind (deref s.heap)

/-! ## Configuration and terminal core -/

/-- Modelled from the spec: an entry of `mshortcuts` (button `b`, modifier
`mask`, string `s`), declared outside `x.cc`. -/
structure MouseShortcut where
  b : Nat
  mask : Nat
  s : List Nat
  deriving DecidableEq, Repr

/-- What `x.cc` takes from `config.h` and from the terminal core, none of which
is in `x.cc`: the tables and constants of the configuration, the modifier
matcher `match`, the pixel-to-cell conversions, `getsel` (the text of the
current selection, a new heap string, or `NULL`), and the end points
`selnormalize` computes for `sel.nb` and `sel.ne`. -/
structure Config where
  forceselmod : Nat
  mshortcuts : List MouseShortcut
  selmasks : List Nat
  doubleclicktimeout : Int
  tripleclicktimeout : Int
  match_ : Nat → Nat → Bool
  x2col : Int → Int
  y2row : Int → Int
  getsel : Selection → Option (List Nat)
  normalized : Selection → Point × Point

/-- Modelled from the spec: `IS_SET(MODE_MOUSE)`, with `MODE_MOUSE` declared
outside `x.cc`: one of the mouse-reporting variants is set. -/
def IS_SET_MODE_MOUSE (m : TermMode) : Bool :=
  m.mousebtn || m.mousemotion || m.mousex10 || m.mousemany

/-- Modelled from the spec: the macro `TIMEDIFF` is not in `x.cc`; it is the
time from `t2` to `t1` in milliseconds. -/
def TIMEDIFF (t1 t2 : Int) : Int := t1 - t2

/-- Rows `top .. bot` of a dirty list that starts at row `i` set to dirty. -/
def markRows (top bot : Int) : Nat → List Bool → List Bool
  | _, [] => []
  | i, d :: ds =>
    (if top ≤ (i : Int) ∧ (i : Int) ≤ bot then true else d) :: markRows top bot (i + 1) ds

/-- Modelled from the spec: `tsetdirt` of the terminal core is not in `x.cc`; it
marks the rows `top .. bot`, clamped to the grid, dirty. -/
def tsetdirt (s : State) (top bot : Int) : State :=
  let last : Int := (s.dirty.length : Int) - 1
  { s with dirty := markRows (max 0 (min top last)) (max 0 (min bot last)) 0 s.dirty }

/-- Modelled from the spec: `selclear` of the terminal core is not in `x.cc`;
clearing makes the selection non-existent (`sel.ob.x == -1`, the test of
`drawregion`), idle, and marks its rows dirty; it does nothing when no
selection exists. -/
def selclear (s : State) : State :=
  if s.sel.ob.x = -1 then s
  else
    let s := { s with sel := { s.sel with mode := SelMode.IDLE, ob := { s.sel.ob with x := -1 } } }
    tsetdirt s s.sel.nb.y s.sel.ne.y

/-- Source function `selclear_(e)`. -/
def selclear_ (s : State) : State := selclear s

/-- Modelled from the spec: `selnormalize` of the terminal core is not in
`x.cc`; it recomputes the normalized end points `sel.nb`, `sel.ne` from the
original ones and writes nothing else. -/
def selnormalize (cfg : Config) (s : State) : State :=
  { s with sel := { s.sel with nb := (cfg.normalized s.sel).1, ne := (cfg.normalized s.sel).2 } }

/-! ## Serving and owning a selection -/

/-- Source function `xclipcopy()`; `none` is undefined behaviour (a dangling pointer freed or read). -/
def xclipcopy (X : Server) (a : Atoms) (s : State) : Option State :=
  -- if (sel.clipboard != NULL) free(sel.clipboard);
  (match s.sel.clipboard with
   | some p => free s.heap p
   | none => some s.heap).bind fun heap =>
  let s := { s with heap := heap }
  match s.sel.primary with
  | some q =>
    (xstrdup s.heap q).map fun (heap, r) =>
      let s := { s with heap := heap, sel := { s.sel with clipboard := some r } }
      XSetSelectionOwner X s a.clipboard s.win CurrentTime
  | none => some s

def XChangeProperty (s : State) (w : Window) (property type : Atom) (format mode : Nat)
    (data : List Nat) (nelements : Nat) : State :=
  { s with xlog := s.xlog ++ [XRequest.ChangeProperty w property type format mode data nelements] }

def XSendEvent (s : State) (w : Window) (ev : XSelectionEvent) : State :=
  { s with xlog := s.xlog ++ [XRequest.SendEvent w ev] }

/-- Source function `selrequest(e)`; `none` is undefined behaviour (`strlen` of a dangling pointer). -/
def selrequest (a : Atoms) (xsre : XSelectionRequestEvent) (s : State) : Option State :=
  -- if (xsre->property == None) xsre->property = xsre->target;
  let xsre := { xsre with
    property := if xsre.property = None then xsre.target else xsre.property }
  -- xev.property = None: reject
  let xev : XSelectionEvent := ⟨xsre.requestor, xsre.selection, xsre.target, xsre.time, None⟩
  if xsre.target = a.targets then
    let s := XChangeProperty s xsre.requestor xsre.property XA_ATOM 32 PropModeReplace
      [a.xtarget] 1
    some (XSendEvent s xsre.requestor { xev with property := xsre.property })
  else if xsre.target = a.xtarget ∨ xsre.target = XA_STRING then
    if xsre.selection = XA_PRIMARY then
      match s.sel.primary with
      | some p =>
        (deref s.heap p).map fun seltext =>
          let s := XChangeProperty s xsre.requestor xsre.property xsre.target 8
            PropModeReplace seltext seltext.length
          XSendEvent s xsre.requestor { xev with property := xsre.property }
      | none => some (XSendEvent s xsre.requestor xev)
    else if xsre.selection = a.clipboard then
      match s.sel.clipboard with
      | some p =>
        (deref s.heap p).map fun seltext =>
          let s := XChangeProperty s xsre.requestor xsre.property xsre.target 8
            PropModeReplace seltext seltext.length
          XSendEvent s xsre.requestor { xev with property := xsre.property }
      | none => some (XSendEvent s xsre.requestor xev)
    else
      -- "Unhandled clipboard selection": return
      some s
  else
    some (XSendEvent s xsre.requestor xev)

/-- Source function `xsetsel(str, t)`; `none` is undefined behaviour (freeing a dangling pointer). -/
def xsetsel (X : Server) (str : Option Nat) (t : Nat) (s : State) : Option State :=
  (match s.sel.primary with
   | some p => free s.heap p
   | none => some s.heap).map fun heap =>
  let s := { s with heap := heap, sel := { s.sel with primary := str } }
  let s := XSetSelectionOwner X s XA_PRIMARY s.win t
  if XGetSelectionOwner s XA_PRIMARY ≠ s.win then selclear_ s else s

/-- Source function `selcopy(t)`: `xsetsel(getsel(), t)`, with the string `getsel` returns
placed in a fresh block. -/
def selcopy (X : Server) (cfg : Config) (t : Nat) (s : State) : Option State :=
  match cfg.getsel s.sel with
  | some str =>
    let (heap, p) := alloc s.heap str
    xsetsel X (some p) t { s with heap := heap }
  | none => xsetsel X none t s

/-! ## Mouse handlers -/

/-- The bits of `a` that are not in `b`: `a & ~b`. -/
def andNot (a b : Nat) : Nat := a - (a &&& b)

/-- Source function `getbuttoninfo(e)`. -/
def getbuttoninfo (cfg : Config) (e : XButtonEvent) (s : State) : State :=
  let state := andNot e.state (Button1Mask ||| cfg.forceselmod)
  let s := { s with sel := { s.sel with alt := s.mode.altscreen } }
  let s := { s with sel := { s.sel with oe := ⟨cfg.x2col e.x, cfg.y2row e.y⟩ } }
  let s := selnormalize cfg s
  let type := ((List.range cfg.selmasks.length).drop 1).find?
    fun t => cfg.match_ (cfg.selmasks.getD t 0) state
  { s with sel := { s.sel with type := type.getD SEL_REGULAR } }

/-- The characters of `%d`. -/
def fmtInt (i : Int) : List Nat :=
  (if i < 0 then [45] else []) ++ (Nat.toDigits 10 i.natAbs).map Char.toNat

/-- The character of `%c`: the argument converted to `unsigned char`. -/
def fmtChar (i : Int) : Nat := (i % 256).toNat

/-- The tail of `mousereport`, from the modifier offsets on: encode `button` at
cell `(x, y)` and write the report. -/
def mousereportSend (e : XButtonEvent) (x y : Int) (s : State) (button : Int) : State :=
  let button :=
    if !s.mode.mousex10 then
      button + ((if e.state &&& ShiftMask ≠ 0 then 4 else 0)
        + (if e.state &&& Mod4Mask ≠ 0 then 8 else 0)
        + (if e.state &&& ControlMask ≠ 0 then 16 else 0))
    else button
  if s.mode.mousesgr then
    ttywrite s ([27, 91, 60] ++ fmtInt button ++ [59] ++ fmtInt (x + 1) ++ [59]
      ++ fmtInt (y + 1) ++ [if e.type = ButtonEventType.ButtonRelease then 109 else 77])
  else if x < 223 ∧ y < 223 then
    ttywrite s ([27, 91, 77] ++ [fmtChar (32 + button), fmtChar (32 + x + 1),
      fmtChar (32 + y + 1)])
  else s

/-- Source function `mousereport(e)`. -/
def mousereport (cfg : Config) (e : XButtonEvent) (s : State) : State :=
  let x := cfg.x2col e.x
  let y := cfg.y2row e.y
  match e.type with
  | ButtonEventType.MotionNotify =>
    if x = s.ox ∧ y = s.oy then s
    else if !s.mode.mousemotion && !s.mode.mousemany then s
    else if s.mode.mousemotion && s.oldbutton == 3 then s
    else mousereportSend e x y { s with ox := x, oy := y } (s.oldbutton + 32)
  | ButtonEventType.ButtonPress =>
    let button : Int := (e.button : Int) - Button1
    let button := if button ≥ 3 then button + (64 - 3) else button
    mousereportSend e x y { s with oldbutton := button, ox := x, oy := y } button
  | ButtonEventType.ButtonRelease =>
    let button : Int :=
      if !s.mode.mousesgr then 3
      else
        let button : Int := (e.button : Int) - Button1
        if button ≥ 3 then button + (64 - 3) else button
    let s := { s with oldbutton := 3 }
    if s.mode.mousex10 then s
    else if button = 64 ∨ button = 65 then s
    else mousereportSend e x y s button

/-- The snap test of `bpress`. -/
def classifySnap (cfg : Config) (now tclick1 tclick2 : Int) : Snap :=
  if TIMEDIFF now tclick2 ≤ cfg.tripleclicktimeout then Snap.LINE
  else if TIMEDIFF now tclick1 ≤ cfg.doubleclicktimeout then Snap.WORD
  else Snap.NONE

/-- The press is handed to `mousereport`. -/
def reported (cfg : Config) (e : XButtonEvent) (s : State) : Bool :=
  IS_SET_MODE_MOUSE s.mode && (e.state &&& cfg.forceselmod == 0)

/-- The first entry of `mshortcuts` that the loop of `bpress` matches. -/
def shortcut (cfg : Config) (e : XButtonEvent) : Option MouseShortcut :=
  cfg.mshortcuts.find? fun ms => e.button == ms.b && cfg.match_ ms.mask e.state

/-- Source function `bpress(e)`; `now` is the value `clock_gettime` returns. -/
def bpress (cfg : Config) (now : Int) (e : XButtonEvent) (s : State) : State :=
  if reported cfg e s then mousereport cfg e s
  else
    match shortcut cfg e with
    | some ms => ttysend s ms.s
    | none =>
      if e.button = Button1 then
        -- Clear previous selection, logically and visually.
        let s := selclear_ s
        let s := { s with sel := { s.sel with mode := SelMode.EMPTY, type := SEL_REGULAR } }
        let s := { s with sel := { s.sel with
          oe := ⟨cfg.x2col e.x, cfg.y2row e.y⟩, ob := ⟨cfg.x2col e.x, cfg.y2row e.y⟩ } }
        let s := { s with sel := { s.sel with
          snap := classifySnap cfg now s.sel.tclick1 s.sel.tclick2 } }
        let s := selnormalize cfg s
        let s := if s.sel.snap ≠ Snap.NONE then
          { s with sel := { s.sel with mode := SelMode.READY } } else s
        let s := tsetdirt s s.sel.nb.y s.sel.ne.y
        { s with sel := { s.sel with tclick2 := s.sel.tclick1, tclick1 := now } }
      else s

/-- Source function `xselpaste()`. -/
def xselpaste (a : Atoms) (s : State) : State :=
  { s with xlog := s.xlog ++
      [XRequest.ConvertSelection XA_PRIMARY a.xtarget XA_PRIMARY CurrentTime] }

/-- Source function `brelease(e)`; `none` is undefined behaviour inside `xsetsel`. -/
def brelease (X : Server) (cfg : Config) (a : Atoms) (e : XButtonEvent) (s : State) :
    Option State :=
  if reported cfg e s then some (mousereport cfg e s)
  else if e.button = Button2 then some (xselpaste a s)
  else if e.button = Button1 then
    (if s.sel.mode = SelMode.READY then
      selcopy X cfg e.time (getbuttoninfo cfg e s)
    else some (selclear_ s)).map fun s =>
    let s := { s with sel := { s.sel with mode := SelMode.IDLE } }
    tsetdirt s s.sel.nb.y s.sel.ne.y
  else some s

/-! ## Sample values -/

def cfg0 : Config :=
  { forceselmod := ShiftMask
    mshortcuts := [⟨4, 0, [25]⟩, ⟨5, 0, [5]⟩]
    selmasks := [0, 0, 8]
    doubleclicktimeout := 300
    tripleclicktimeout := 300
    match_ := fun mask state => mask == state
    x2col := fun x => x / 10
    y2row := fun y => y / 20
    getsel := fun sel => if sel.ob.x = -1 then none else some [104, 105]
    normalized := fun sel =>
      if sel.ob.y < sel.oe.y ∨ (sel.ob.y = sel.oe.y ∧ sel.ob.x ≤ sel.oe.x)
      then (sel.ob, sel.oe) else (sel.oe, sel.ob) }

def atoms0 : Atoms := ⟨300, 301, 302, 303⟩

def sel0 : Selection :=
  ⟨SelMode.IDLE, SEL_REGULAR, Snap.NONE, ⟨0, 0⟩, ⟨0, 0⟩, ⟨-1, 0⟩, ⟨0, 0⟩,
   none, none, false, -1000, -1000⟩

def mode0 : TermMode := ⟨false, false, false, false, false, false, false⟩

def state0 : State :=
  ⟨sel0, [], mode0, [false, false, false, false], 0, 77, [], [], [], [], 3, 0, 0⟩

def stateBrckt : State :=
  { state0 with mode := { mode0 with brcktpaste := true } }

/-- A state whose clipboard holds "a" while the primary buffer is unset. -/
def stateClip : State :=
  { state0 with heap := [some [97]], sel := { sel0 with clipboard := some 0 } }

/-- A state whose primary buffer holds "hi" and whose clipboard holds "a". -/
def stateBoth : State :=
  { state0 with heap := [some [97], some [104, 105]],
                sel := { sel0 with clipboard := some 0, primary := some 1 } }

/-- A state with a selection from cell (1, 0) to cell (2, 0), every row clean. -/
def stateSelected : State :=
  { state0 with sel := { sel0 with nb := ⟨1, 0⟩, ne := ⟨2, 0⟩, ob := ⟨1, 0⟩, oe := ⟨2, 0⟩ } }

/-! ## Vocabulary of the theorems -/

/-- The completion notifications in a request log, with their destination. -/
def notifications (log : List XRequest) : List (Window × XSelectionEvent) :=
  log.filterMap fun r =>
    match r with
    | XRequest.SendEvent w ev => some (w, ev)
    | _ => none

/-- The property writes in a request log. -/
def propertyWrites (log : List XRequest) : List XRequest :=
  log.filter fun r =>
    match r with
    | XRequest.ChangeProperty _ _ _ _ _ _ _ => true
    | _ => false

/-- The property a request is answered on: `xsre->property` after `selrequest`
has replaced `None` by the target. -/
def requestedProperty (xsre : XSelectionRequestEvent) : Atom :=
  if xsre.property = None then xsre.target else xsre.property

/-- A buffer pointer is `NULL` or points to a live block. -/
def live (s : State) (buf : Option Nat) : Bool :=
  match buf with
  | none => true
  | some p => (deref s.heap p).isSome

/-- A text-format request: the target is the supported text format or STRING,
and is not the TARGETS query. -/
def textRequest (a : Atoms) (xsre : XSelectionRequestEvent) : Prop :=
  xsre.target ≠ a.targets ∧ (xsre.target = a.xtarget ∨ xsre.target = XA_STRING)

instance (a : Atoms) (xsre : XSelectionRequestEvent) : Decidable (textRequest a xsre) := by
  unfold textRequest; infer_instance

/-- The state after `selrequest` has written `data` to the requester's property
and sent the notification that carries that property. -/
def served (s : State) (xsre : XSelectionRequestEvent) (type : Atom) (format : Nat)
    (data : List Nat) (nelements : Nat) : State :=
  { s with xlog := s.xlog ++
      [XRequest.ChangeProperty xsre.requestor (requestedProperty xsre) type format
         PropModeReplace data nelements,
       XRequest.SendEvent xsre.requestor
         ⟨xsre.requestor, xsre.selection, xsre.target, xsre.time, requestedProperty xsre⟩] }

/-- The state after `selrequest` has sent the notification with property `None`
and written nothing. -/
def refused (s : State) (xsre : XSelectionRequestEvent) : State :=
  { s with xlog := s.xlog ++
      [XRequest.SendEvent xsre.requestor
         ⟨xsre.requestor, xsre.selection, xsre.target, xsre.time, None⟩] }

/-- A state with a READY selection from cell (2, 3), primary "hi", clipboard "a". -/
def stateReady : State :=
  { stateBoth with sel := { stateBoth.sel with
      mode := SelMode.READY, ob := ⟨2, 3⟩, oe := ⟨2, 3⟩, nb := ⟨2, 3⟩, ne := ⟨2, 3⟩ } }

/-- The replies `rs` are what the server gives to successive reads of `property`
when the first read is at offset `ofs` and each later read is at the offset of
the one before plus the units that one returned. -/
def ReadsFrom (X : Server) (props : List (Atom × Property)) (property : Atom) (len : Nat) :
    Nat → List XReply → Prop
  | _, [] => True
  | ofs, r :: rs =>
    X.getProperty props property ofs len = some r
      ∧ ReadsFrom X props property len (ofs + r.units) rs

/-- There is at least one read, every read but the last leaves data behind
(`rem > 0`) and returns a positive number of 32-bit units, and the last read
leaves nothing (`rem = 0`). -/
def MoreUntilLast : List XReply → Prop
  | [] => False
  | [r] => r.rem = 0
  | r :: r' :: rs => 0 < r.rem ∧ 0 < r.units ∧ MoreUntilLast (r' :: rs)

/-- The offsets of successive reads, the first being `ofs`. -/
def readOffsets : Nat → List XReply → List Nat
  | _, [] => []
  | ofs, r :: rs => ofs :: readOffsets (ofs + r.units) rs

/-- The bytes of the reads, concatenated, with line feeds replaced. -/
def pasted (rs : List XReply) : List Nat :=
  (rs.map fun r => r.bytes.map lf2cr).flatten

/-- The state after one iteration of the loop of `selnotify` whose read at
offset `ofs` returned `r`, of a type other than INCR. -/
def afterRead (BUFSIZ : Nat) (pn : Bool) (property : Atom) (ofs : Nat) (r : XReply)
    (s : State) : State :=
  let s := { s with xlog := s.xlog ++ [XRequest.GetWindowProperty property ofs (BUFSIZ / 4)] }
  let s :=
    if pn && r.nitems == 0 && r.rem == 0 then
      XChangeWindowAttributes
        { s with event_mask := MODBIT s.event_mask false PropertyChangeMask }
    else s
  let s := if s.mode.brcktpaste && ofs == 0 then ttywrite s pasteBegin else s
  let s := ttysend s (r.bytes.map lf2cr)
  if s.mode.brcktpaste && r.rem == 0 then ttywrite s pasteEnd else s

/-- What `selnotify` writes for one value it reads at offset 0 to the end: the
bytes with line feeds replaced, between the markers when bracketed paste is set. -/
def wrapped (brcktpaste : Bool) (c : List Nat) : List Nat :=
  (if brcktpaste then pasteBegin else []) ++ c.map lf2cr ++
  (if brcktpaste then pasteEnd else [])

/-! ## Renderer: cells, glyph specs, batches -/

/-- Modelled from the spec: a terminal cell (`MTGlyph`, declared outside `x.cc`):
character code, attribute bitmask, foreground and background colour reference. -/
structure MTGlyph where
  u : Nat
  mode : Nat
  fg : Nat
  bg : Nat
  deriving DecidableEq, Repr

/-- Modelled from the spec: the attribute bits of a cell, declared outside
`x.cc`; distinct single bits, `ATTR_BOLD_FAINT` being bold and faint together. -/
def ATTR_NULL : Nat := 0
def ATTR_BOLD : Nat := 1
def ATTR_FAINT : Nat := 2
def ATTR_ITALIC : Nat := 4
def ATTR_UNDERLINE : Nat := 8
def ATTR_BLINK : Nat := 16
def ATTR_REVERSE : Nat := 32
def ATTR_INVISIBLE : Nat := 64
def ATTR_STRUCK : Nat := 128
def ATTR_WIDE : Nat := 512
def ATTR_WDUMMY : Nat := 1024
def ATTR_BOLD_FAINT : Nat := 3

/-- Modelled from the spec: the bits of `win.state`, declared outside `x.cc`. -/
def WIN_VISIBLE : Nat := 1
def WIN_FOCUSED : Nat := 2

/-- The value `VisibilityFullyObscured` of a VisibilityNotify state. -/
def VisibilityFullyObscured : Nat := 2

/-- Modelled from the spec: the macro `ATTRCMP`, declared outside `x.cc`: two
cells differ in mode, foreground or background. -/
def ATTRCMP (a b : MTGlyph) : Bool :=
  a.mode != b.mode || a.fg != b.fg || a.bg != b.bg

/-- Modelled from the spec: the macro `IS_TRUECOL`, declared outside `x.cc`: bit
24 marks a packed 24-bit colour. -/
def IS_TRUECOL (x : Nat) : Bool := (2 ^ 24 &&& x) != 0

/-- Modelled from the spec: the macro `BETWEEN(x, a, b)`, declared outside
`x.cc`: `a <= x && x <= b`, both ends included. -/
def BETWEEN (x a b : Int) : Bool := decide (a ≤ x) && decide (x ≤ b)

/-- Modelled from the spec: the macro `LIMIT(x, a, b)`, declared outside `x.cc`:
`x` clamped to `a .. b`. -/
def LIMIT (x a b : Int) : Int := if x < a then a else if x > b then b else x

/-- An `XftGlyphFontSpec`: glyph index, font, pen position. -/
structure Spec where
  glyph : Nat
  font : Nat
  x : Int
  y : Int
  deriving DecidableEq, Repr

/-- An `XRenderColor`; `alpha` is `none` where the C code leaves it unset. -/
structure XRenderColor where
  red : Nat
  green : Nat
  blue : Nat
  alpha : Option Nat
  deriving DecidableEq, Repr

/-- What a `Color *` of `xdrawglyphfontspecs` points to: the palette entry
`dc.col[i]`, or a colour allocated for the call from a value. -/
inductive ColorRef where
  | palette (i : Nat)
  | value (c : XRenderColor)
  deriving DecidableEq, Repr

/-- What the renderer takes from `config.h`, the window geometry, the font
engine and the terminal core, none of which is in `x.cc`: the border, the cell
and window sizes, the ascent, the default colour indices, the cursor
thickness, `FindGlyph` (character, bold, italic to glyph index and font), and
`selected` (is the cell inside the selection, read from `sel`). -/
structure RenderCfg where
  borderpx : Int
  cw : Int
  ch : Int
  w : Int
  h : Int
  ascent : Int
  defaultfg : Nat
  defaultbg : Nat
  defaultcs : Nat
  defaultrcs : Nat
  cursorthickness : Int
  findGlyph : Nat → Bool → Bool → Nat × Nat
  selected : Selection → Int → Int → Bool

/-- A drawing call recorded by the renderer: `glyphs specs base len x y` is
`xdrawglyphfontspecs(specs, base, len, x, y)` with `specs` the `len` specs it
draws; `rect` is an `XftDrawRect` issued by `xdrawcursor` itself. -/
inductive DrawCall where
  | glyphs (specs : List Spec) (base : MTGlyph) (len : Nat) (x : Int) (y : Int)
  | rect (color : ColorRef) (x : Int) (y : Int) (w : Int) (h : Int)
  deriving DecidableEq, Repr

/-- Renderer state: the global `sel`, the bits of `term.mode` the renderer
tests, the grid `term.line` with `term.dirty`, `term.row`, `term.col` and the
cursor `term.c`, `win.state`, `win.cursor`, the statics `oldx`, `oldy` of
`xdrawcursor`, and the drawing calls issued so far. -/
structure View where
  sel : Selection
  altscreen : Bool
  reverse : Bool
  hide : Bool
  blink : Bool
  line : List (List MTGlyph)
  dirty : List Bool
  row : Nat
  col : Nat
  cx : Int
  cy : Int
  winstate : Nat
  cursor : Nat
  oldx : Int
  oldy : Int
  calls : List DrawCall
  deriving DecidableEq, Repr

/-- The loop of `xmakeglyphfontspecs` from pen position `xp` on. -/
def makeSpecs (R : RenderCfg) (yp : Int) : List MTGlyph → Int → List Spec
  | [], _ => []
  | g :: gs, xp =>
    if g.mode = ATTR_WDUMMY then makeSpecs R yp gs xp
    else
      ⟨(R.findGlyph g.u (g.mode &&& ATTR_BOLD != 0) (g.mode &&& ATTR_ITALIC != 0)).1,
       (R.findGlyph g.u (g.mode &&& ATTR_BOLD != 0) (g.mode &&& ATTR_ITALIC != 0)).2,
       xp, yp⟩ ::
        makeSpecs R yp gs (xp + R.cw + (if g.mode &&& ATTR_WIDE ≠ 0 then R.cw else 0))

/-- Source function `xmakeglyphfontspecs(specs, glyphs, len, x, y)`: the specs
written; `numspecs` is their number. Pen positions are whole numbers. -/
def xmakeglyphfontspecs (R : RenderCfg) (glyphs : List MTGlyph) (x y : Int) : List Spec :=
  makeSpecs R (R.borderpx + y * R.ch + R.ascent) glyphs (R.borderpx + x * R.cw)

/-- The selection flag `ena_sel` of `drawregion` and `xdrawcursor`. -/
def ena_sel (v : View) : Bool :=
  v.sel.ob.x != -1 && v.sel.alt == v.altscreen

/-- The cell `changed` of `drawregion`: the cell at `(x, y)` with the reverse
bit flipped when it is highlighted. -/
def changedCell (R : RenderCfg) (v : View) (x y : Int) (g : MTGlyph) : MTGlyph :=
  if ena_sel v && R.selected v.sel x y then { g with mode := g.mode ^^^ ATTR_REVERSE } else g

/-- The inner loop of `drawregion` for row `y`, at column `x` with the cells
from `x` on, and the final `if (i > 0)` draw: the calls added to `out`. -/
def drawRowLoop (R : RenderCfg) (v : View) (y : Nat) :
    List MTGlyph → Nat → Nat → Nat → MTGlyph → List Spec → Nat → List DrawCall → List DrawCall
  | [], _, i, ox, base, specs, _, out =>
    if i > 0 then out ++ [DrawCall.glyphs (specs.take i) base i ox y] else out
  | g :: gs, x, i, ox, base, specs, numspecs, out =>
    if i < numspecs then
      if g.mode = ATTR_WDUMMY then drawRowLoop R v y gs (x + 1) i ox base specs numspecs out
      else
        let changed := changedCell R v x y g
        if i > 0 && ATTRCMP base changed then
          drawRowLoop R v y gs (x + 1) 1 x changed (specs.drop i) (numspecs - i)
            (out ++ [DrawCall.glyphs (specs.take i) base i ox y])
        else if i = 0 then
          drawRowLoop R v y gs (x + 1) 1 x changed specs numspecs out
        else
          drawRowLoop R v y gs (x + 1) (i + 1) ox base specs numspecs out
    else
      if i > 0 then out ++ [DrawCall.glyphs (specs.take i) base i ox y] else out

/-- The cells `term.line[y][x1 .. x2)`. -/
def rowCells (v : View) (x1 x2 y : Nat) : List MTGlyph :=
  ((v.line.getD y []).drop x1).take (x2 - x1)

/-- The body of the row loop of `drawregion` for a dirty row `y`: the calls
it issues. -/
def drawRow (R : RenderCfg) (v : View) (x1 x2 y : Nat) : List DrawCall :=
  let specs := xmakeglyphfontspecs R (rowCells v x1 x2 y) x1 y
  drawRowLoop R v y (rowCells v x1 x2 y) x1 0 0 ⟨0, 0, 0, 0⟩ specs specs.length []

/-- The row loop of `drawregion` over the rows `ys`. -/
def drawRows (R : RenderCfg) (x1 x2 : Nat) : List Nat → View → View
  | [], v => v
  | y :: ys, v =>
    if v.dirty.getD y false then
      let v := { v with dirty := v.dirty.set y false }
      drawRows R x1 x2 ys { v with calls := v.calls ++ drawRow R v x1 x2 y }
    else drawRows R x1 x2 ys v

/-- The cell `term.line[y][x]`. -/
def cellAt (v : View) (x y : Int) : MTGlyph :=
  ((v.line.getD y.toNat []).getD x.toNat ⟨0, 0, 0, 0⟩)

/-- Source function `xdrawglyph(g, x, y)`: the call it issues. -/
def xdrawglyph (R : RenderCfg) (g : MTGlyph) (x y : Int) : DrawCall :=
  DrawCall.glyphs (xmakeglyphfontspecs R [g] x y) g (xmakeglyphfontspecs R [g] x y).length x y

/-- The column `curx` of `xdrawcursor`: the cursor column, moved one to the
left when the cursor is on a cell with the dummy bit. -/
def cursorColumn (v : View) : Int :=
  if (cellAt v v.cx v.cy).mode &&& ATTR_WDUMMY ≠ 0 then v.cx - 1 else v.cx

/-- The statics `oldx`, `oldy` of `xdrawcursor` after the clamping and the
dummy adjustment. -/
def oldCursor (v : View) : Int × Int :=
  let oldx := LIMIT v.oldx 0 ((v.col : Int) - 1)
  let oldy := LIMIT v.oldy 0 ((v.row : Int) - 1)
  (if (cellAt v oldx oldy).mode &&& ATTR_WDUMMY ≠ 0 then oldx - 1 else oldx, oldy)

/-- The call by which `xdrawcursor` removes the old cursor. -/
def eraseCursor (R : RenderCfg) (v : View) : DrawCall :=
  let og := cellAt v (oldCursor v).1 (oldCursor v).2
  let og := if ena_sel v && R.selected v.sel (oldCursor v).1 (oldCursor v).2
    then { og with mode := og.mode ^^^ ATTR_REVERSE } else og
  xdrawglyph R og (oldCursor v).1 (oldCursor v).2

/-- The glyph `g` of `xdrawcursor` after the colour selection. -/
def cursorGlyph (R : RenderCfg) (v : View) : MTGlyph :=
  let g : MTGlyph :=
    ⟨(cellAt v v.cx v.cy).u,
     ATTR_NULL ||| ((cellAt v v.cx v.cy).mode &&&
       (ATTR_BOLD ||| ATTR_ITALIC ||| ATTR_UNDERLINE ||| ATTR_STRUCK)),
     R.defaultbg, R.defaultcs⟩
  let sel := ena_sel v && R.selected v.sel v.cx v.cy
  if v.reverse then
    { g with mode := g.mode ||| ATTR_REVERSE, bg := R.defaultfg,
             fg := if sel then R.defaultrcs else R.defaultcs }
  else if sel then { g with fg := R.defaultfg, bg := R.defaultrcs } else g

/-- The colour `drawcol` of `xdrawcursor`. -/
def cursorColor (R : RenderCfg) (v : View) : ColorRef :=
  let sel := ena_sel v && R.selected v.sel v.cx v.cy
  if v.reverse then (if sel then ColorRef.palette R.defaultcs else ColorRef.palette R.defaultrcs)
  else (if sel then ColorRef.palette R.defaultrcs else ColorRef.palette R.defaultcs)

/-- The calls by which `xdrawcursor` draws the new cursor (`draw the new one`). -/
def drawCursor (R : RenderCfg) (v : View) : List DrawCall :=
  let curx := cursorColumn v
  let drawcol := cursorColor R v
  if v.winstate &&& WIN_FOCUSED ≠ 0 then
    if v.cursor = 7 ∨ v.cursor = 0 ∨ v.cursor = 1 ∨ v.cursor = 2 then
      -- case 7 sets the snowman and falls through to the block
      let g := if v.cursor = 7 then { cursorGlyph R v with u := 9731 } else cursorGlyph R v
      let g := { g with mode := g.mode ||| ((cellAt v curx v.cy).mode &&& ATTR_WIDE) }
      [xdrawglyph R g v.cx v.cy]
    else if v.cursor = 3 ∨ v.cursor = 4 then
      [DrawCall.rect drawcol (R.borderpx + curx * R.cw)
        (R.borderpx + (v.cy + 1) * R.ch - R.cursorthickness) R.cw R.cursorthickness]
    else if v.cursor = 5 ∨ v.cursor = 6 then
      [DrawCall.rect drawcol (R.borderpx + curx * R.cw) (R.borderpx + v.cy * R.ch)
        R.cursorthickness R.ch]
    else []
  else
    [DrawCall.rect drawcol (R.borderpx + curx * R.cw) (R.borderpx + v.cy * R.ch)
       (R.cw - 1) 1,
     DrawCall.rect drawcol (R.borderpx + curx * R.cw) (R.borderpx + v.cy * R.ch)
       1 (R.ch - 1),
     DrawCall.rect drawcol (R.borderpx + (curx + 1) * R.cw - 1) (R.borderpx + v.cy * R.ch)
       1 (R.ch - 1),
     DrawCall.rect drawcol (R.borderpx + curx * R.cw) (R.borderpx + (v.cy + 1) * R.ch - 1)
       R.cw 1]

/-- Source function `xdrawcursor()`: the old cursor is removed, and unless the
cursor is hidden the new one is drawn and remembered in `oldx`, `oldy`. -/
def xdrawcursor (R : RenderCfg) (v : View) : View :=
  if v.hide then
    { v with oldx := (oldCursor v).1, oldy := (oldCursor v).2,
             calls := v.calls ++ [eraseCursor R v] }
  else
    { v with oldx := cursorColumn v, oldy := v.cy,
             calls := v.calls ++ [eraseCursor R v] ++ drawCursor R v }

/-- Source function `drawregion(x1, y1, x2, y2)`. -/
def drawregion (R : RenderCfg) (x1 y1 x2 y2 : Nat) (v : View) : View :=
  if v.winstate &&& WIN_VISIBLE = 0 then v
  else xdrawcursor R (drawRows R x1 x2 (List.range' y1 (y2 - y1)) v)

/-- Source function `visibility(ev)`; `state` is `ev->xvisibility.state`. -/
def visibility (state : Nat) (v : View) : View :=
  { v with winstate := MODBIT v.winstate (state != VisibilityFullyObscured) WIN_VISIBLE }

/-- Source function `unmap(ev)`. -/
def unmap (v : View) : View :=
  { v with winstate := andNot v.winstate WIN_VISIBLE }

/-! ## Renderer: colours and drawing operations -/

/-- Macro `TRUERED(x)`. -/
def TRUERED (x : Nat) : Nat := (x &&& 0xff0000) >>> 8
/-- Macro `TRUEGREEN(x)`. -/
def TRUEGREEN (x : Nat) : Nat := x &&& 0xff00
/-- Macro `TRUEBLUE(x)`. -/
def TRUEBLUE (x : Nat) : Nat := (x &&& 0xff) <<< 8

/-- The colour a packed 24-bit value decodes to. -/
def trueColor (x : Nat) : XRenderColor :=
  ⟨TRUERED x, TRUEGREEN x, TRUEBLUE x, some 0xffff⟩

/-- The foreground `fg` of `xdrawglyphfontspecs` before any reverse handling:
the decoded true colour or the palette entry, then the change of the basic
system colours 0-7 to the bright ones 8-15. -/
def baseFg (base : MTGlyph) : ColorRef :=
  let fg := if IS_TRUECOL base.fg then ColorRef.value (trueColor base.fg)
            else ColorRef.palette base.fg
  if (base.mode &&& ATTR_BOLD_FAINT) = ATTR_BOLD ∧ BETWEEN base.fg 0 7 = true
  then ColorRef.palette (base.fg + 8) else fg

/-- The background `bg` of `xdrawglyphfontspecs` before any reverse handling. -/
def baseBg (base : MTGlyph) : ColorRef :=
  if IS_TRUECOL base.bg then ColorRef.value (trueColor base.bg)
  else ColorRef.palette base.bg

/-- The colour value behind a reference, given the palette `dc.col`. -/
def colorOf (dc : List XRenderColor) : ColorRef → XRenderColor
  | ColorRef.palette i => dc.getD i ⟨0, 0, 0, none⟩
  | ColorRef.value c => c

/-- The complement `~c` of a 16-bit colour component. -/
def compl16 (c : Nat) : Nat := 65535 - c % 65536

/-- The colours `fg`, `bg` with which `xdrawglyphfontspecs` draws: after the
global reverse mode, the reverse attribute, faint, blink and invisible. -/
def glyphColors (R : RenderCfg) (v : View) (dc : List XRenderColor) (base : MTGlyph) :
    ColorRef × ColorRef :=
  let fg := baseFg base
  let bg := baseBg base
  -- `colfg.alpha` as left by the stages that assign it
  let alpha : Option Nat := if IS_TRUECOL base.fg then some 0xffff else none
  let alpha : Option Nat :=
    if v.reverse ∧ fg ≠ ColorRef.palette R.defaultfg then (colorOf dc fg).alpha else alpha
  let fg : ColorRef :=
    if v.reverse then
      if fg = ColorRef.palette R.defaultfg then ColorRef.palette R.defaultbg
      else ColorRef.value ⟨compl16 (colorOf dc fg).red, compl16 (colorOf dc fg).green,
        compl16 (colorOf dc fg).blue, (colorOf dc fg).alpha⟩
    else fg
  let bg : ColorRef :=
    if v.reverse then
      if bg = ColorRef.palette R.defaultbg then ColorRef.palette R.defaultfg
      else ColorRef.value ⟨compl16 (colorOf dc bg).red, compl16 (colorOf dc bg).green,
        compl16 (colorOf dc bg).blue, (colorOf dc bg).alpha⟩
    else bg
  let (fg, bg) := if base.mode &&& ATTR_REVERSE ≠ 0 then (bg, fg) else (fg, bg)
  let fg : ColorRef :=
    if (base.mode &&& ATTR_BOLD_FAINT) = ATTR_FAINT then
      ColorRef.value ⟨(colorOf dc fg).red / 2, (colorOf dc fg).green / 2,
        (colorOf dc fg).blue / 2, alpha⟩
    else fg
  let fg := if base.mode &&& ATTR_BLINK ≠ 0 ∧ v.blink then bg else fg
  let fg := if base.mode &&& ATTR_INVISIBLE ≠ 0 then bg else fg
  (fg, bg)

/-- The Xft requests behind a drawing call. -/
inductive XftOp where
  | DrawRect (color : ColorRef) (x : Int) (y : Int) (w : Int) (h : Int)
  | SetClipRectangles (x : Int) (y : Int) (w : Int) (h : Int)
  | DrawGlyphFontSpec (color : ColorRef) (specs : List Spec)
  | SetClip
  deriving DecidableEq, Repr

/-- Source function `xclear(x1, y1, x2, y2)`. -/
def xclear (R : RenderCfg) (v : View) (x1 y1 x2 y2 : Int) : XftOp :=
  XftOp.DrawRect (ColorRef.palette (if v.reverse then R.defaultfg else R.defaultbg))
    x1 y1 (x2 - x1) (y2 - y1)

/-- Source function `xdrawglyphfontspecs(specs, base, len, x, y)`: the requests
it issues. -/
def xdrawglyphfontspecs (R : RenderCfg) (v : View) (dc : List XRenderColor)
    (specs : List Spec) (base : MTGlyph) (len : Nat) (x y : Int) : List XftOp :=
  let charlen : Int := (len : Int) * (if base.mode &&& ATTR_WIDE ≠ 0 then 2 else 1)
  let winx := R.borderpx + x * R.cw
  let winy := R.borderpx + y * R.ch
  let width := charlen * R.cw
  let fg := (glyphColors R v dc base).1
  let bg := (glyphColors R v dc base).2
  -- intelligent cleaning up of the borders
  (if x = 0 then
    [xclear R v 0 (if y = 0 then 0 else winy) R.borderpx
      (winy + R.ch + (if y ≥ (v.row : Int) - 1 then R.h else 0))] else [])
  ++ (if x + charlen ≥ (v.col : Int) then
    [xclear R v (winx + width) (if y = 0 then 0 else winy) R.w
      (if y ≥ (v.row : Int) - 1 then R.h else winy + R.ch)] else [])
  ++ (if y = 0 then [xclear R v winx 0 (winx + width) R.borderpx] else [])
  ++ (if y = (v.row : Int) - 1 then [xclear R v winx (winy + R.ch) (winx + width) R.h] else [])
  -- clean up the region we want to draw to
  ++ [XftOp.DrawRect bg winx winy width R.ch,
      XftOp.SetClipRectangles winx winy width R.ch,
      XftOp.DrawGlyphFontSpec fg (specs.take len)]
  ++ (if base.mode &&& ATTR_UNDERLINE ≠ 0 then
    [XftOp.DrawRect fg winx (winy + R.ascent + 1) width 1] else [])
  ++ (if base.mode &&& ATTR_STRUCK ≠ 0 then
    [XftOp.DrawRect fg winx (winy + 2 * R.ascent / 3) width 1] else [])
  ++ [XftOp.SetClip]

/-- The Xft requests of a recorded drawing call. -/
def render (R : RenderCfg) (v : View) (dc : List XRenderColor) : DrawCall → List XftOp
  | DrawCall.glyphs specs base len x y => xdrawglyphfontspecs R v dc specs base len x y
  | DrawCall.rect color x y w h => [XftOp.DrawRect color x y w h]

/-! ## Colour table -/

/-- An allocated `XftColor`. -/
structure Color where
  pixel : Nat
  color : XRenderColor
  deriving DecidableEq, Repr

/-- What `xloadcolor` takes from outside `x.cc`: the table `colorname` of
`config.h` (an entry is `none` where the table holds `NULL` or ends) and the
two Xft allocators, each of which may fail. -/
structure ColorCfg where
  colorname : List (Option (List Nat))
  allocValue : XRenderColor → Option Color
  allocName : Option (List Nat) → Option Color

/-- Source function `sixd_to_16bit(x)`. -/
def sixd_to_16bit (x : Int) : Int := if x = 0 then 0 else 0x3737 + 0x2828 * x

/-- Source function `xloadcolor(i, name, ncolor)`: the colour stored in
`*ncolor`, or `none` when the allocation fails (the return value is 0). -/
def xloadcolor (C : ColorCfg) (i : Int) (name : Option (List Nat)) : Option Color :=
  match name with
  | none =>
    if BETWEEN i 16 255 then
      if i < 6 * 6 * 6 + 16 then
        C.allocValue ⟨(sixd_to_16bit (((i - 16) / 36) % 6)).toNat,
          (sixd_to_16bit (((i - 16) / 6) % 6)).toNat,
          (sixd_to_16bit (((i - 16) / 1) % 6)).toNat, some 0xffff⟩
      else
        C.allocValue ⟨(0x0808 + 0x0a0a * (i - (6 * 6 * 6 + 16))).toNat,
          (0x0808 + 0x0a0a * (i - (6 * 6 * 6 + 16))).toNat,
          (0x0808 + 0x0a0a * (i - (6 * 6 * 6 + 16))).toNat, some 0xffff⟩
    else C.allocName (C.colorname.getD i.toNat none)
  | some n => C.allocName (some n)

/-- The outcome of `xsetcolorname`: it returned `code` with the table `dc.col`
as given, or it freed and overwrote `dc.col[x]` for an `x` that is not a slot
of the table. -/
inductive SetColor where
  | returned (code : Int) (col : List Color)
  | outside (x : Int) (ncolor : Color)
  deriving DecidableEq, Repr

/-- Source function `xsetcolorname(x, name)` on the table `dc.col`, whose length
is `dc.collen`. -/
def xsetcolorname (C : ColorCfg) (x : Int) (name : Option (List Nat)) (col : List Color) :
    SetColor :=
  if !BETWEEN x 0 col.length then SetColor.returned 1 col
  else
    match xloadcolor C x name with
    | none => SetColor.returned 1 col
    | some ncolor =>
      -- XftColorFree(.., &dc.col[x]); dc.col[x] = ncolor;
      if x.toNat < col.length then SetColor.returned 0 (col.set x.toNat ncolor)
      else SetColor.outside x ncolor

/-! ## Event loop timing -/

/-- The constants `blinktimeout`, `xfps`, `actionfps` of `config.h`. -/
structure RunCfg where
  blinktimeout : Int
  xfps : Int
  actionfps : Int

/-- A `struct timespec`. -/
structure Timespec where
  tv_sec : Int
  tv_nsec : Int
  deriving DecidableEq, Repr

/-- The locals of `run` that carry over from one iteration to the next, with
the blink bit of `term.mode` and the number of redraws done. `tv` is `none`
for `NULL`, a wait without timeout. Times are in milliseconds. -/
structure Loop where
  xev : Int
  blinkset : Bool
  last : Int
  lastblink : Int
  tv : Option Timespec
  blinkmode : Bool
  draws : Nat
  deriving DecidableEq, Repr

/-- The timeout `run` computes when blink is set (`if (blinkset) ...`): the
`drawtimeout` it leaves after splitting the nanoseconds into seconds and rest. -/
def blinkWait (C : RunCfg) (now lastblink : Int) : Timespec :=
  let nsec : Int :=
    if TIMEDIFF now lastblink > C.blinktimeout then 1000
    else 1000000 * (C.blinktimeout - TIMEDIFF now lastblink)
  ⟨nsec / 1000000000, nsec % 1000000000⟩

/-- The end of an iteration of `run` in which a redraw was done: the activity
counter is stepped down, and when neither descriptor was ready the next wait
is set. -/
def afterDraw (C : RunCfg) (cmd xfd : Bool) (now : Int) (l : Loop) : Loop :=
  let l := if l.xev ≠ 0 ∧ xfd = false then { l with xev := l.xev - 1 } else l
  if cmd = false ∧ xfd = false then
    if l.blinkset then { l with tv := some (blinkWait C now l.lastblink) }
    else { l with tv := none }
  else l

/-- The start of an iteration of `run` after `pselect` has returned without
error, up to the default `drawtimeout`. -/
def afterSelect (C : RunCfg) (cmd xfd tattr : Bool) (l : Loop) : Loop :=
  let l :=
    if cmd ∧ C.blinktimeout ≠ 0 then
      { l with blinkset := tattr, blinkmode := if tattr then l.blinkmode else false }
    else l
  let l := if xfd then { l with xev := C.actionfps } else l
  { l with tv := some ⟨0, (1000 * 1000000) / C.xfps⟩ }

/-- The blink toggle of an iteration is due. -/
def blinkDue (C : RunCfg) (now : Int) (l : Loop) : Bool :=
  C.blinktimeout ≠ 0 ∧ TIMEDIFF now l.lastblink > C.blinktimeout

/-- The frame of an iteration is due. -/
def frameDue (C : RunCfg) (now : Int) (l : Loop) : Bool :=
  TIMEDIFF now l.last > 1000 / (if l.xev ≠ 0 then C.xfps else C.actionfps)

/-- One iteration of the loop of `run` after `pselect` has returned without
error: `cmd` and `xfd` tell which descriptor is ready, `now` is the clock, and
`tattr` is what `tattrset(ATTR_BLINK)` answers after `ttyread`. -/
def tick (C : RunCfg) (cmd xfd tattr : Bool) (now : Int) (l : Loop) : Loop :=
  let l := afterSelect C cmd xfd tattr l
  let blinked := blinkDue C now l
  let l := if blinked then { l with blinkmode := !l.blinkmode, lastblink := now } else l
  let due := frameDue C now l
  let l := if due then { l with last := now } else l
  if blinked || due then afterDraw C cmd xfd now { l with draws := l.draws + 1 }
  else l

/-! ## Sample values of the renderer -/

def render0 : RenderCfg :=
  { borderpx := 2, cw := 10, ch := 20, w := 44, h := 44, ascent := 15
    defaultfg := 7, defaultbg := 0, defaultcs := 256, defaultrcs := 257
    cursorthickness := 2
    findGlyph := fun u bold italic => (u, (if bold then 1 else 0) + (if italic then 2 else 0))
    selected := fun sel x y =>
      decide (sel.nb.y ≤ y ∧ y ≤ sel.ne.y ∧ (y ≠ sel.nb.y ∨ sel.nb.x ≤ x)
        ∧ (y ≠ sel.ne.y ∨ x ≤ sel.ne.x)) }

/-- A selection from cell (1, 0) to cell (2, 0), made on the primary screen. -/
def selRow : Selection :=
  { sel0 with mode := SelMode.READY, ob := ⟨1, 0⟩, oe := ⟨2, 0⟩, nb := ⟨1, 0⟩, ne := ⟨2, 0⟩ }

/-- A visible, focused 2 x 4 grid: row 0 is "ab" then a wide character and its
placeholder, row 1 is a bold "x", a bold "y" and two blanks; both rows are
dirty, the cursor is a steady block on the placeholder, cell (3, 0). -/
def view0 : View :=
  { sel := selRow, altscreen := false, reverse := false, hide := false, blink := false
    line := [[⟨97, 0, 7, 0⟩, ⟨98, 0, 7, 0⟩, ⟨12354, ATTR_WIDE, 7, 0⟩, ⟨0, ATTR_WDUMMY, 7, 0⟩],
             [⟨120, ATTR_BOLD, 1, 0⟩, ⟨121, ATTR_BOLD, 1, 0⟩, ⟨32, 0, 7, 0⟩, ⟨32, 0, 7, 0⟩]]
    dirty := [true, true], row := 2, col := 4, cx := 3, cy := 0
    winstate := WIN_VISIBLE ||| WIN_FOCUSED, cursor := 2, oldx := 0, oldy := 1, calls := [] }

/-- The calls `xdrawcursor` adds in state `v`: the cursor overlay. -/
def cursorCalls (R : RenderCfg) (v : View) : List DrawCall :=
  (xdrawcursor R v).calls.drop v.calls.length

/-- The row of a batch call, `none` for a rectangle. -/
def DrawCall.row : DrawCall → Option Int
  | DrawCall.glyphs _ _ _ _ y => some y
  | DrawCall.rect _ _ _ _ _ => none

/-- The cell at `(x, y)` is drawn highlighted: `ena_sel && selected(x, y)`. -/
def highlighted (R : RenderCfg) (v : View) (x y : Int) : Bool :=
  ena_sel v && R.selected v.sel x y

/-- The view with no selection (`sel.ob.x == -1`). -/
def noSelection (v : View) : View :=
  { v with sel := { v.sel with ob := ⟨-1, v.sel.ob.y⟩ } }

/-- A colour configuration: no names in `colorname`, an allocator by name that
succeeds for every name that is not `NULL`, an allocator by value that always
succeeds. -/
def colors0 : ColorCfg :=
  { colorname := []
    allocValue := fun c => some ⟨1, c⟩
    allocName := fun n => n.map fun _ => ⟨2, ⟨65535, 0, 0, some 65535⟩⟩ }

/-- A colour table of the 256 entries `xloadcols` loads at least. -/
def table0 : List Color := List.replicate 256 ⟨0, ⟨0, 0, 0, some 65535⟩⟩

def run0 : RunCfg := ⟨800, 120, 30⟩

/-- The locals of `run` 100 ms after the last frame, with blink set and the last
blink toggle at time 0. -/
def loop0 : Loop := ⟨0, true, 700, 0, none, false, 0⟩

/-- The cell has bold set and faint clear, and its foreground is one of the
palette indices 0..7. -/
def brightBold (base : MTGlyph) : Prop :=
  base.mode &&& ATTR_BOLD ≠ 0 ∧ base.mode &&& ATTR_FAINT = 0 ∧ base.fg ≤ 7

instance (base : MTGlyph) : Decidable (brightBold base) := by
  unfold brightBold; infer_instance

/-! ## Vocabulary of the coalescing theorem -/

theorem selrequest_targets_eq (a : Atoms) (xsre : XSelectionRequestEvent) (s : State)
    (h : xsre.target = a.targets) :
    selrequest a xsre s = some (served s xsre XA_ATOM 32 [a.xtarget] 1) := by
  simp [selrequest, served, requestedProperty, XSendEvent, XChangeProperty, h]

theorem selrequest_other_eq (a : Atoms) (xsre : XSelectionRequestEvent) (s : State)
    (h : xsre.target ≠ a.targets) (hx : ¬ (xsre.target = a.xtarget ∨ xsre.target = XA_STRING)) :
    selrequest a xsre s = some (refused s xsre) := by
  simp [selrequest, refused, XSendEvent, h, hx]

theorem selrequest_primary_eq (a : Atoms) (xsre : XSelectionRequestEvent) (s : State)
    (h : textRequest a xsre) (hsel : xsre.selection = XA_PRIMARY) :
    selrequest a xsre s =
      match s.sel.primary with
      | some p => (deref s.heap p).map fun text => served s xsre xsre.target 8 text text.length
      | none => some (refused s xsre) := by
  obtain ⟨requestor, selection, target, time, property⟩ := xsre
  obtain ⟨ht, hx⟩ := h
  simp only at hsel ht hx
  subst hsel
  simp only [selrequest, ht, hx, if_true, if_false]
  cases s.sel.primary <;>
    simp [refused, served, requestedProperty, XSendEvent, XChangeProperty]

theorem selrequest_clipboard_eq (a : Atoms) (xsre : XSelectionRequestEvent) (s : State)
    (h : textRequest a xsre) (hne : xsre.selection ≠ XA_PRIMARY)
    (hsel : xsre.selection = a.clipboard) :
    selrequest a xsre s =
      match s.sel.clipboard with
      | some p => (deref s.heap p).map fun text => served s xsre xsre.target 8 text text.length
      | none => some (refused s xsre) := by
  obtain ⟨requestor, selection, target, time, property⟩ := xsre
  obtain ⟨ht, hx⟩ := h
  simp only at hsel ht hx hne
  subst hsel
  simp only [selrequest, ht, hx, hne, if_true, if_false]
  cases s.sel.clipboard <;>
    simp [refused, served, requestedProperty, XSendEvent, XChangeProperty]

theorem selrequest_unhandled_eq (a : Atoms) (xsre : XSelectionRequestEvent) (s : State)
    (h : textRequest a xsre) (hne : xsre.selection ≠ XA_PRIMARY)
    (hnc : xsre.selection ≠ a.clipboard) :
    selrequest a xsre s = some s := by
  obtain ⟨ht, hx⟩ := h
  simp [selrequest, ht, hx, hne, hnc]

theorem notifications_served (s : State) (xsre : XSelectionRequestEvent) (type : Atom)
    (format : Nat) (data : List Nat) (n : Nat) :
    notifications (served s xsre type format data n).xlog = notifications s.xlog ++
      [(xsre.requestor,
        ⟨xsre.requestor, xsre.selection, xsre.target, xsre.time, requestedProperty xsre⟩)] := by
  simp [served, notifications, List.filterMap_append]

theorem notifications_refused (s : State) (xsre : XSelectionRequestEvent) :
    notifications (refused s xsre).xlog = notifications s.xlog ++
      [(xsre.requestor, ⟨xsre.requestor, xsre.selection, xsre.target, xsre.time, None⟩)] := by
  simp [refused, notifications, List.filterMap_append]

/-- What a live, possibly null, buffer pointer gives a text request. -/
theorem text_answer_notifies (s : State) (xsre : XSelectionRequestEvent) (buf : Option Nat)
    (hl : live s buf = true) :
    ∃ s' ev,
      (match buf with
       | some p => (deref s.heap p).map fun text => served s xsre xsre.target 8 text text.length
       | none => some (refused s xsre)) = some s'
      ∧ notifications s'.xlog = notifications s.xlog ++ [(xsre.requestor, ev)]
      ∧ (ev.property = requestedProperty xsre ∨ ev.property = None) := by
  cases buf with
  | none => exact ⟨_, _, rfl, notifications_refused s xsre, Or.inr rfl⟩
  | some p =>
    simp only [live, Option.isSome_iff_exists] at hl
    obtain ⟨text, htext⟩ := hl
    exact ⟨served s xsre xsre.target 8 text text.length, _, by simp [htext],
      notifications_served s xsre _ _ _ _, Or.inl rfl⟩

/-- C2, as stated, fails: a text-format request whose selection is neither
PRIMARY nor CLIPBOARD is answered with no completion notification at all;
`selrequest` returns before the send and leaves the request log as it was. -/
theorem selrequest_unhandled_selection_sends_nothing :
    textRequest atoms0 ⟨5, 99, atoms0.xtarget, 0, 7⟩
    ∧ (99 : Atom) ≠ XA_PRIMARY ∧ (99 : Atom) ≠ atoms0.clipboard
    ∧ (selrequest atoms0 ⟨5, 99, atoms0.xtarget, 0, 7⟩ stateBoth).map
        (fun s => notifications s.xlog) = some [] := by
  decide

/-- C2, amended: every selection request other than a text-format request whose
selection is neither PRIMARY nor CLIPBOARD gets exactly one completion
notification, sent to the requester, whose property is the request's property
(the target when the request named none) or `None`; a text-format request whose
selection is neither PRIMARY nor CLIPBOARD changes nothing and sends nothing. -/
theorem selrequest_notifies_once (a : Atoms) (xsre : XSelectionRequestEvent) (s : State)
    (hp : live s s.sel.primary = true) (hc : live s s.sel.clipboard = true) :
    (¬ (textRequest a xsre ∧ xsre.selection ≠ XA_PRIMARY ∧ xsre.selection ≠ a.clipboard) →
      ∃ s' ev, selrequest a xsre s = some s'
        ∧ notifications s'.xlog = notifications s.xlog ++ [(xsre.requestor, ev)]
        ∧ (ev.property = requestedProperty xsre ∨ ev.property = None))
    ∧ (textRequest a xsre ∧ xsre.selection ≠ XA_PRIMARY ∧ xsre.selection ≠ a.clipboard →
      selrequest a xsre s = some s) := by
  refine ⟨fun h => ?_, fun h => selrequest_unhandled_eq a xsre s h.1 h.2.1 h.2.2⟩
  by_cases ht : xsre.target = a.targets
  · exact ⟨_, _, selrequest_targets_eq a xsre s ht, notifications_served s xsre _ _ _ _,
      Or.inl rfl⟩
  · by_cases hx : xsre.target = a.xtarget ∨ xsre.target = XA_STRING
    · by_cases h1 : xsre.selection = XA_PRIMARY
      · rw [selrequest_primary_eq a xsre s ⟨ht, hx⟩ h1]
        exact text_answer_notifies s xsre _ hp
      · have h2 : xsre.selection = a.clipboard := by
          by_contra hcon
          exact h ⟨⟨ht, hx⟩, h1, hcon⟩
        rw [selrequest_clipboard_eq a xsre s ⟨ht, hx⟩ h1 h2]
        exact text_answer_notifies s xsre _ hc
    · exact ⟨_, _, selrequest_other_eq a xsre s ht hx, notifications_refused s xsre,
        Or.inr rfl⟩

theorem selrequest_notifies_once_witness :
    live stateBoth stateBoth.sel.primary = true ∧ live stateBoth stateBoth.sel.clipboard = true
    ∧ (¬ (textRequest atoms0 ⟨5, 300, 303, 0, 7⟩ ∧ (300 : Atom) ≠ XA_PRIMARY
          ∧ (300 : Atom) ≠ atoms0.clipboard) →
        ∃ s' ev, selrequest atoms0 ⟨5, 300, 303, 0, 7⟩ stateBoth = some s'
          ∧ notifications s'.xlog = notifications stateBoth.xlog ++ [(5, ev)]
          ∧ (ev.property = requestedProperty ⟨5, 300, 303, 0, 7⟩ ∨ ev.property = None))
    ∧ (textRequest atoms0 ⟨5, 300, 303, 0, 7⟩ ∧ (300 : Atom) ≠ XA_PRIMARY
          ∧ (300 : Atom) ≠ atoms0.clipboard →
        selrequest atoms0 ⟨5, 300, 303, 0, 7⟩ stateBoth = some stateBoth) :=
  ⟨by decide, by decide,
   selrequest_notifies_once atoms0 ⟨5, 300, 303, 0, 7⟩ stateBoth (by decide) (by decide)⟩

/-- C5: a request whose target is TARGETS is answered, whatever the selection
and the buffers, by writing the one-atom list `[xsel.xtarget]` (type ATOM,
format 32) to the requested property and by one notification carrying that
property; the requested property is the request's own unless it is `None`. -/
theorem selrequest_targets (a : Atoms) (xsre : XSelectionRequestEvent) (s : State)
    (h : xsre.target = a.targets) :
    selrequest a xsre s = some
      { s with xlog := s.xlog ++
          [XRequest.ChangeProperty xsre.requestor (requestedProperty xsre) XA_ATOM 32
             PropModeReplace [a.xtarget] 1,
           XRequest.SendEvent xsre.requestor
             ⟨xsre.requestor, xsre.selection, xsre.target, xsre.time,
              requestedProperty xsre⟩] }
    ∧ (xsre.property ≠ None → requestedProperty xsre = xsre.property) :=
  ⟨selrequest_targets_eq a xsre s h, fun hn => by simp [requestedProperty, hn]⟩

theorem selrequest_targets_witness :
    (⟨5, 99, 302, 0, 7⟩ : XSelectionRequestEvent).target = atoms0.targets
    ∧ selrequest atoms0 ⟨5, 99, 302, 0, 7⟩ stateBoth = some
      { stateBoth with xlog := stateBoth.xlog ++
          [XRequest.ChangeProperty 5 (requestedProperty ⟨5, 99, 302, 0, 7⟩) XA_ATOM 32
             PropModeReplace [atoms0.xtarget] 1,
           XRequest.SendEvent 5 ⟨5, 99, 302, 0, requestedProperty ⟨5, 99, 302, 0, 7⟩⟩] }
    ∧ ((7 : Atom) ≠ None → requestedProperty ⟨5, 99, 302, 0, 7⟩ = 7) :=
  ⟨rfl, selrequest_targets atoms0 ⟨5, 99, 302, 0, 7⟩ stateBoth rfl⟩

/-- C6: a text-format request addressed to PRIMARY or CLIPBOARD whose buffer is
unset writes no property and sends one notification whose property is `None`. -/
theorem selrequest_unset_buffer (a : Atoms) (xsre : XSelectionRequestEvent) (s : State)
    (hwf : a.WellFormed) (ht : xsre.target = a.xtarget ∨ xsre.target = XA_STRING)
    (hbuf : (xsre.selection = XA_PRIMARY ∧ s.sel.primary = none)
      ∨ (xsre.selection = a.clipboard ∧ s.sel.clipboard = none)) :
    ∃ s', selrequest a xsre s = some s'
      ∧ s' = { s with xlog := s.xlog ++ [XRequest.SendEvent xsre.requestor
          ⟨xsre.requestor, xsre.selection, xsre.target, xsre.time, None⟩] }
      ∧ propertyWrites s'.xlog = propertyWrites s.xlog
      ∧ notifications s'.xlog = notifications s.xlog ++
          [(xsre.requestor, ⟨xsre.requestor, xsre.selection, xsre.target, xsre.time, None⟩)] := by
  obtain ⟨hcp, htx, hts⟩ := hwf
  have htext : textRequest a xsre := by
    refine ⟨?_, ht⟩
    rcases ht with h | h
    · rw [h]; exact fun e => htx e.symm
    · rw [h]; exact fun e => hts e.symm
  refine ⟨refused s xsre, ?_, rfl, ?_, notifications_refused s xsre⟩
  · rcases hbuf with ⟨hsel, hnone⟩ | ⟨hsel, hnone⟩
    · rw [selrequest_primary_eq a xsre s htext hsel, hnone]
    · rw [selrequest_clipboard_eq a xsre s htext (by rw [hsel]; exact hcp) hsel, hnone]
  · simp [refused, propertyWrites, List.filter_append]

theorem selrequest_unset_buffer_witness :
    atoms0.WellFormed
    ∧ ((303 : Atom) = atoms0.xtarget ∨ (303 : Atom) = XA_STRING)
    ∧ (((300 : Atom) = XA_PRIMARY ∧ state0.sel.primary = none)
      ∨ ((300 : Atom) = atoms0.clipboard ∧ state0.sel.clipboard = none))
    ∧ ∃ s', selrequest atoms0 ⟨5, 300, 303, 0, 7⟩ state0 = some s'
      ∧ s' = { state0 with xlog := state0.xlog ++ [XRequest.SendEvent 5 ⟨5, 300, 303, 0, None⟩] }
      ∧ propertyWrites s'.xlog = propertyWrites state0.xlog
      ∧ notifications s'.xlog = notifications state0.xlog ++ [(5, ⟨5, 300, 303, 0, None⟩)] :=
  ⟨by decide, by decide, by decide,
   selrequest_unset_buffer atoms0 ⟨5, 300, 303, 0, 7⟩ state0 (by decide) (by decide)
     (by decide)⟩

/-- C7: a text-format request whose addressed buffer holds `text` (the primary
buffer for PRIMARY, the clipboard buffer for CLIPBOARD) is answered by one
write of exactly `text`, format 8, type the requested target, to the requested
property, followed by one notification carrying that property; the requested
property is the target atom when the request's property is `None`. -/
theorem selrequest_serves_buffer (a : Atoms) (xsre : XSelectionRequestEvent) (s : State)
    (text : List Nat) (hwf : a.WellFormed)
    (ht : xsre.target = a.xtarget ∨ xsre.target = XA_STRING)
    (hbuf : (xsre.selection = XA_PRIMARY ∧ bufferText s s.sel.primary = some text)
      ∨ (xsre.selection = a.clipboard ∧ bufferText s s.sel.clipboard = some text)) :
    selrequest a xsre s = some
      { s with xlog := s.xlog ++
          [XRequest.ChangeProperty xsre.requestor (requestedProperty xsre) xsre.target 8
             PropModeReplace text text.length,
           XRequest.SendEvent xsre.requestor
             ⟨xsre.requestor, xsre.selection, xsre.target, xsre.time,
              requestedProperty xsre⟩] }
    ∧ requestedProperty xsre = (if xsre.property = None then xsre.target else xsre.property) := by
  obtain ⟨hcp, htx, hts⟩ := hwf
  have htext : textRequest a xsre := by
    refine ⟨?_, ht⟩
    rcases ht with h | h
    · rw [h]; exact fun e => htx e.symm
    · rw [h]; exact fun e => hts e.symm
  refine ⟨?_, rfl⟩
  rcases hbuf with ⟨hsel, hb⟩ | ⟨hsel, hb⟩
  · rw [selrequest_primary_eq a xsre s htext hsel]
    cases hp : s.sel.primary with
    | none => simp [bufferText, hp] at hb
    | some p =>
      have hd : deref s.heap p = some text := by simpa [bufferText, hp] using hb
      simp [hd, served]
  · rw [selrequest_clipboard_eq a xsre s htext (by rw [hsel]; exact hcp) hsel]
    cases hp : s.sel.clipboard with
    | none => simp [bufferText, hp] at hb
    | some p =>
      have hd : deref s.heap p = some text := by simpa [bufferText, hp] using hb
      simp [hd, served]

theorem selrequest_serves_buffer_witness :
    atoms0.WellFormed
    ∧ ((31 : Atom) = atoms0.xtarget ∨ (31 : Atom) = XA_STRING)
    ∧ (((300 : Atom) = XA_PRIMARY ∧ bufferText stateBoth stateBoth.sel.primary = some [97])
      ∨ ((300 : Atom) = atoms0.clipboard
          ∧ bufferText stateBoth stateBoth.sel.clipboard = some [97]))
    ∧ selrequest atoms0 ⟨5, 300, 31, 0, 0⟩ stateBoth = some
      { stateBoth with xlog := stateBoth.xlog ++
          [XRequest.ChangeProperty 5 (requestedProperty ⟨5, 300, 31, 0, 0⟩) 31 8
             PropModeReplace [97] [97].length,
           XRequest.SendEvent 5 ⟨5, 300, 31, 0, requestedProperty ⟨5, 300, 31, 0, 0⟩⟩] }
    ∧ requestedProperty ⟨5, 300, 31, 0, 0⟩ = (if (0 : Atom) = None then 31 else 0) :=
  ⟨by decide, by decide, by decide,
   selrequest_serves_buffer atoms0 ⟨5, 300, 31, 0, 0⟩ stateBoth [97] (by decide) (by decide)
     (by decide)⟩

/-! ## Clipboard commit -/

/-- With the primary buffer unset `xclipcopy` claims nothing and leaves `sel`
as it is, pointers included; but a clipboard that held a string no longer does,
because its block has been freed. -/
theorem xclipcopy_primary_unset (X : Server) (a : Atoms) (s : State)
    (hp : s.sel.primary = none) (hc : live s s.sel.clipboard = true) :
    ∃ s', xclipcopy X a s = some s' ∧ s'.sel = s.sel ∧ s'.xlog = s.xlog
      ∧ s'.owners = s.owners
      ∧ (s.sel.clipboard = none → s' = s)
      ∧ (s.sel.clipboard ≠ none → bufferText s' s'.sel.clipboard = none) := by
  cases hcl : s.sel.clipboard with
  | none =>
    refine ⟨s, ?_, rfl, rfl, rfl, fun _ => rfl, fun h => absurd rfl h⟩
    simp [xclipcopy, hcl, hp]
  | some p =>
    simp only [live, hcl] at hc
    obtain ⟨text, htext⟩ := Option.isSome_iff_exists.mp hc
    have hget : s.heap[p]? = some (some text) := by
      cases h : s.heap[p]? with
      | none => simp [deref, h] at htext
      | some v => cases v with
        | none => simp [deref, h] at htext
        | some w => simp [deref, h] at htext; rw [htext]
    have hlt : p < s.heap.length := by
      by_contra hge
      have : s.heap[p]? = none := List.getElem?_eq_none (by omega)
      rw [this] at hget
      exact absurd hget (by simp)
    refine ⟨{ s with heap := s.heap.set p none }, ?_, rfl, rfl, rfl, fun h => by simp at h,
      fun _ => ?_⟩
    · simp [xclipcopy, hcl, hp, free, hget]
    · simp [bufferText, hcl, deref, List.getElem?_set, hlt]

/-- C4 fails on the code: with the primary buffer unset and the clipboard
holding "a", `xclipcopy` frees the clipboard block and keeps the pointer, so
the clipboard is no longer a valid buffer; a later request for CLIPBOARD reads
the freed block and a second `xclipcopy` frees it again. No ownership claim is
issued and the primary buffer stays unset. -/
theorem xclipcopy_primary_unset_dangling :
    stateClip.sel.primary = none
    ∧ bufferText stateClip stateClip.sel.clipboard = some [97]
    ∧ (xclipcopy xserver atoms0 stateClip).map
        (fun s => (s.sel.primary, s.sel.clipboard, bufferText s s.sel.clipboard, s.xlog))
        = some (none, some 0, none, [])
    ∧ (xclipcopy xserver atoms0 stateClip).bind (selrequest atoms0 ⟨5, 300, 303, 0, 7⟩) = none
    ∧ (xclipcopy xserver atoms0 stateClip).bind (xclipcopy xserver atoms0) = none := by
  decide

/-! ## Button press -/

theorem selclear_tclick (s : State) :
    (selclear s).sel.tclick1 = s.sel.tclick1 ∧ (selclear s).sel.tclick2 = s.sel.tclick2 := by
  unfold selclear
  split <;> simp [tsetdirt]

theorem selclear_mode (s : State) : (selclear s).mode = s.mode := by
  unfold selclear
  split <;> simp [tsetdirt]

/-- The selection fields after a press that is handled as a selection click. -/
theorem bpress_click_sel (cfg : Config) (now : Int) (e : XButtonEvent) (s : State)
    (hrep : reported cfg e s = false) (hms : shortcut cfg e = none) (hb : e.button = Button1) :
    (bpress cfg now e s).sel.snap = classifySnap cfg now s.sel.tclick1 s.sel.tclick2
    ∧ (bpress cfg now e s).sel.tclick2 = s.sel.tclick1
    ∧ (bpress cfg now e s).sel.tclick1 = now
    ∧ (bpress cfg now e s).sel.ob = ⟨cfg.x2col e.x, cfg.y2row e.y⟩
    ∧ (bpress cfg now e s).sel.oe = ⟨cfg.x2col e.x, cfg.y2row e.y⟩
    ∧ (bpress cfg now e s).sel.type = SEL_REGULAR
    ∧ (bpress cfg now e s).sel.mode =
        (if classifySnap cfg now s.sel.tclick1 s.sel.tclick2 = Snap.NONE then SelMode.EMPTY
         else SelMode.READY)
    ∧ (bpress cfg now e s).mode = s.mode := by
  have h1 := (selclear_tclick s).1
  have h2 := (selclear_tclick s).2
  have h3 := selclear_mode s
  simp only [bpress, hrep, hms, hb, selclear_, selnormalize, tsetdirt, if_true]
  by_cases hs : classifySnap cfg now s.sel.tclick1 s.sel.tclick2 = Snap.NONE <;>
    simp [h1, h2, h3, hs]

theorem bpress_click_dirty (cfg : Config) (now : Int) (e : XButtonEvent) (s : State)
    (hrep : reported cfg e s = false) (hms : shortcut cfg e = none) (hb : e.button = Button1) :
    ∃ top bot, (bpress cfg now e s).dirty = markRows top bot 0 (selclear_ s).dirty := by
  simp only [bpress, hrep, hms, hb, selnormalize, tsetdirt, if_true, Bool.false_eq_true,
    if_false]
  split <;> exact ⟨_, _, rfl⟩

theorem mousereportSend_sel (e : XButtonEvent) (x y : Int) (s : State) (button : Int) :
    (mousereportSend e x y s button).sel = s.sel := by
  unfold mousereportSend
  dsimp only
  split_ifs <;> rfl

theorem mousereport_sel (cfg : Config) (e : XButtonEvent) (s : State) :
    (mousereport cfg e s).sel = s.sel := by
  unfold mousereport
  dsimp only
  split
  · split_ifs <;> first | rfl | exact mousereportSend_sel _ _ _ _ _
  · exact mousereportSend_sel _ _ _ _ _
  · split_ifs <;> first | rfl | exact mousereportSend_sel _ _ _ _ _

/-- C3: a Button1 press handled as a selection click at time `now` sets the
snap to LINE when `now - tclick2` is within the triple-click timeout, else to
WORD when `now - tclick1` is within the double-click timeout, else to NONE, and
then shifts the time stamps (`tclick2` is the old `tclick1`, `tclick1` is
`now`). With both timeouts 300 ms and no click in the 300 ms before time 0,
clicks at 0, 150 and 280 ms give NONE, WORD, LINE. -/
theorem bpress_classifies_snap (cfg : Config) (now : Int) (e : XButtonEvent) (s : State)
    (hrep : reported cfg e s = false) (hms : shortcut cfg e = none) (hb : e.button = Button1) :
    ((bpress cfg now e s).sel.snap =
        (if now - s.sel.tclick2 ≤ cfg.tripleclicktimeout then Snap.LINE
         else if now - s.sel.tclick1 ≤ cfg.doubleclicktimeout then Snap.WORD
         else Snap.NONE)
      ∧ (bpress cfg now e s).sel.tclick2 = s.sel.tclick1
      ∧ (bpress cfg now e s).sel.tclick1 = now)
    ∧ (∀ e2 e3 : XButtonEvent,
        reported cfg e2 s = false → shortcut cfg e2 = none → e2.button = Button1 →
        reported cfg e3 s = false → shortcut cfg e3 = none → e3.button = Button1 →
        cfg.doubleclicktimeout = 300 → cfg.tripleclicktimeout = 300 →
        300 < 0 - s.sel.tclick1 → 300 < 0 - s.sel.tclick2 →
        (bpress cfg 0 e s).sel.snap = Snap.NONE
        ∧ (bpress cfg 150 e2 (bpress cfg 0 e s)).sel.snap = Snap.WORD
        ∧ (bpress cfg 280 e3 (bpress cfg 150 e2 (bpress cfg 0 e s))).sel.snap = Snap.LINE) := by
  constructor
  · obtain ⟨h1, h2, h3, -⟩ := bpress_click_sel cfg now e s hrep hms hb
    exact ⟨by rw [h1]; rfl, h2, h3⟩
  · intro e2 e3 hrep2 hms2 hb2 hrep3 hms3 hb3 hd ht hold1 hold2
    obtain ⟨a1, a2, a3, -, -, -, -, am⟩ := bpress_click_sel cfg 0 e s hrep hms hb
    have hrep2' : reported cfg e2 (bpress cfg 0 e s) = false := by
      simpa [reported, am] using hrep2
    obtain ⟨b1, b2, b3, -, -, -, -, bm⟩ :=
      bpress_click_sel cfg 150 e2 (bpress cfg 0 e s) hrep2' hms2 hb2
    have hrep3' : reported cfg e3 (bpress cfg 150 e2 (bpress cfg 0 e s)) = false := by
      simpa [reported, am, bm] using hrep3
    obtain ⟨c1, -, -, -⟩ :=
      bpress_click_sel cfg 280 e3 (bpress cfg 150 e2 (bpress cfg 0 e s)) hrep3' hms3 hb3
    refine ⟨?_, ?_, ?_⟩
    · rw [a1]
      simp only [classifySnap, TIMEDIFF, hd, ht]
      rw [if_neg (by omega), if_neg (by omega)]
    · rw [b1, a2, a3]
      simp only [classifySnap, TIMEDIFF, hd, ht]
      rw [if_neg (by omega), if_pos (by omega)]
    · rw [c1, b2, b3, a3]
      simp only [classifySnap, TIMEDIFF, hd, ht]
      rw [if_pos (by omega)]

theorem bpress_classifies_snap_witness :
    reported cfg0 ⟨ButtonEventType.ButtonPress, 25, 65, 1, 0, 0⟩ state0 = false
    ∧ shortcut cfg0 ⟨ButtonEventType.ButtonPress, 25, 65, 1, 0, 0⟩ = none
    ∧ (1 : Nat) = Button1
    ∧ ((bpress cfg0 150 ⟨ButtonEventType.ButtonPress, 25, 65, 1, 0, 0⟩ state0).sel.snap =
          (if 150 - state0.sel.tclick2 ≤ cfg0.tripleclicktimeout then Snap.LINE
           else if 150 - state0.sel.tclick1 ≤ cfg0.doubleclicktimeout then Snap.WORD
           else Snap.NONE)
        ∧ (bpress cfg0 150 ⟨ButtonEventType.ButtonPress, 25, 65, 1, 0, 0⟩ state0).sel.tclick2
            = state0.sel.tclick1
        ∧ (bpress cfg0 150 ⟨ButtonEventType.ButtonPress, 25, 65, 1, 0, 0⟩ state0).sel.tclick1
            = 150)
    ∧ ((bpress cfg0 0 ⟨ButtonEventType.ButtonPress, 25, 65, 1, 0, 0⟩ state0).sel.snap = Snap.NONE
        ∧ (bpress cfg0 150 ⟨ButtonEventType.ButtonPress, 25, 65, 1, 0, 0⟩
            (bpress cfg0 0 ⟨ButtonEventType.ButtonPress, 25, 65, 1, 0, 0⟩ state0)).sel.snap
            = Snap.WORD
        ∧ (bpress cfg0 280 ⟨ButtonEventType.ButtonPress, 25, 65, 1, 0, 0⟩
            (bpress cfg0 150 ⟨ButtonEventType.ButtonPress, 25, 65, 1, 0, 0⟩
              (bpress cfg0 0 ⟨ButtonEventType.ButtonPress, 25, 65, 1, 0, 0⟩ state0))).sel.snap
            = Snap.LINE) :=
  ⟨by decide, by decide, by decide,
   (bpress_classifies_snap cfg0 150 ⟨ButtonEventType.ButtonPress, 25, 65, 1, 0, 0⟩ state0
      (by decide) (by decide) (by decide)).1,
   (bpress_classifies_snap cfg0 150 ⟨ButtonEventType.ButtonPress, 25, 65, 1, 0, 0⟩ state0
      (by decide) (by decide) (by decide)).2
      ⟨ButtonEventType.ButtonPress, 25, 65, 1, 0, 0⟩ ⟨ButtonEventType.ButtonPress, 25, 65, 1, 0, 0⟩
      (by decide) (by decide) (by decide) (by decide) (by decide) (by decide)
      (by decide) (by decide) (by decide) (by decide)⟩

theorem markRows_getD (top bot : Int) (l : List Bool) :
    ∀ (i j : Nat), l.getD j false = true → (markRows top bot i l).getD j false = true := by
  induction l with
  | nil => intro i j h; simp at h
  | cons d ds ih =>
    intro i j h
    cases j with
    | zero =>
      simp only [List.getD_cons_zero] at h
      simp [markRows, h]
    | succ j =>
      simp only [List.getD_cons_succ] at h
      simp only [markRows, List.getD_cons_succ]
      exact ih (i + 1) j h

theorem markRows_length (top bot : Int) (l : List Bool) :
    ∀ i : Nat, (markRows top bot i l).length = l.length := by
  induction l with
  | nil => intro i; rfl
  | cons d ds ih => intro i; simp only [markRows, List.length_cons, ih]

/-- The rows that `markRows` leaves dirty: those dirty before and those of the
grid between `top` and `bot`. -/
theorem markRows_getD_iff (top bot : Int) (l : List Bool) :
    ∀ (i j : Nat), (markRows top bot i l).getD j false = true
      ↔ l.getD j false = true
        ∨ (j < l.length ∧ top ≤ ((i + j : Nat) : Int) ∧ ((i + j : Nat) : Int) ≤ bot) := by
  induction l with
  | nil => intro i j; simp [markRows]
  | cons d ds ih =>
    intro i j
    cases j with
    | zero =>
      simp only [markRows, List.getD_cons_zero, List.length_cons, Nat.add_zero]
      by_cases h : top ≤ (i : Int) ∧ (i : Int) ≤ bot
      · simp [h]
      · simp only [h, if_false]
        constructor
        · intro hd; exact Or.inl hd
        · rintro (hd | ⟨-, h1, h2⟩)
          exact hd
    | succ j =>
      simp only [markRows, List.getD_cons_succ, List.length_cons]
      rw [ih (i + 1) j]
      have e : i + 1 + j = i + (j + 1) := by omega
      rw [e]
      constructor
      · rintro (hd | ⟨h0, h1, h2⟩)
        · exact Or.inl hd
        · exact Or.inr ⟨by omega, h1, h2⟩
      · rintro (hd | ⟨h0, h1, h2⟩)
        · exact Or.inl hd
        · exact Or.inr ⟨by omega, h1, h2⟩

/-- The dirty flags after `selclear`: with a selection present its rows,
clamped to the grid, are marked. -/
theorem selclear_dirty (s : State) :
    (selclear s).dirty
      = if s.sel.ob.x = -1 then s.dirty
        else markRows (max 0 (min s.sel.nb.y ((s.dirty.length : Int) - 1)))
               (max 0 (min s.sel.ne.y ((s.dirty.length : Int) - 1))) 0 s.dirty := by
  unfold selclear
  split
  · rfl
  · rfl

theorem selclear_dirty_length (s : State) : (selclear s).dirty.length = s.dirty.length := by
  rw [selclear_dirty]
  split
  · rfl
  · exact markRows_length _ _ _ _

/-- The dirty flags after a press handled as a selection click: the rows of
the new selection, clamped to the grid, are marked in the flags `selclear`
leaves. -/
theorem bpress_click_rows (cfg : Config) (now : Int) (e : XButtonEvent) (s : State)
    (hrep : reported cfg e s = false) (hms : shortcut cfg e = none) (hb : e.button = Button1) :
    (bpress cfg now e s).dirty
      = markRows (max 0 (min (bpress cfg now e s).sel.nb.y ((s.dirty.length : Int) - 1)))
          (max 0 (min (bpress cfg now e s).sel.ne.y ((s.dirty.length : Int) - 1))) 0
          (selclear_ s).dirty := by
  have hl : (selclear s).dirty.length = s.dirty.length := selclear_dirty_length s
  simp only [bpress, hrep, hms, hb, selclear_, selnormalize, tsetdirt, if_true,
    Bool.false_eq_true, if_false]
  split <;> simp only [hl]

/-- The normalized end points after a press handled as a selection click are
those of the new anchor: `selnormalize` runs on the selection whose original
end points are both the pressed cell. -/
theorem bpress_click_normalized (cfg : Config) (now : Int) (e : XButtonEvent) (s : State)
    (hrep : reported cfg e s = false) (hms : shortcut cfg e = none) (hb : e.button = Button1) :
    ((bpress cfg now e s).sel.nb, (bpress cfg now e s).sel.ne)
      = cfg.normalized { s.sel with
          mode := SelMode.EMPTY, type := SEL_REGULAR
          oe := ⟨cfg.x2col e.x, cfg.y2row e.y⟩, ob := ⟨cfg.x2col e.x, cfg.y2row e.y⟩
          snap := classifySnap cfg now s.sel.tclick1 s.sel.tclick2 } := by
  have hsel : ({ (selclear s).sel with
      mode := SelMode.EMPTY, type := SEL_REGULAR
      oe := ⟨cfg.x2col e.x, cfg.y2row e.y⟩, ob := ⟨cfg.x2col e.x, cfg.y2row e.y⟩
      snap := classifySnap cfg now (selclear s).sel.tclick1 (selclear s).sel.tclick2 } : Selection)
      = { s.sel with
          mode := SelMode.EMPTY, type := SEL_REGULAR
          oe := ⟨cfg.x2col e.x, cfg.y2row e.y⟩, ob := ⟨cfg.x2col e.x, cfg.y2row e.y⟩
          snap := classifySnap cfg now s.sel.tclick1 s.sel.tclick2 } := by
    unfold selclear
    split <;> simp [tsetdirt]
  rw [← hsel]
  simp only [bpress, hrep, hms, hb, selclear_, selnormalize, tsetdirt, if_true,
    Bool.false_eq_true, if_false]
  split <;> rfl

/-- C10: a Button1 press at cell `(c, r)` that is neither reported nor taken by
a mouse shortcut clears the previous selection: when a selection existed, every
row of the grid between its normalized end points is dirty afterwards, so it is
repainted without the highlight, and the old end points are replaced, the
original ones by `(c, r)` and the normalized ones by those of the new anchor.
A row is dirty afterwards exactly when it was dirty before, or is a row of the
old selection, or is a row of the new one. The type is REGULAR, and the mode is
READY for snap WORD or LINE and EMPTY for snap NONE. A press that is reported
or taken by a mouse shortcut leaves `sel`, click time stamps included,
unchanged. -/
theorem bpress_transition (cfg : Config) (now : Int) (e : XButtonEvent) (s : State) :
    (reported cfg e s = false → shortcut cfg e = none → e.button = Button1 →
      (∀ i, (selclear_ s).dirty.getD i false = true →
        (bpress cfg now e s).dirty.getD i false = true)
      ∧ (bpress cfg now e s).sel.ob = ⟨cfg.x2col e.x, cfg.y2row e.y⟩
      ∧ (bpress cfg now e s).sel.oe = ⟨cfg.x2col e.x, cfg.y2row e.y⟩
      ∧ (bpress cfg now e s).sel.type = SEL_REGULAR
      ∧ ((bpress cfg now e s).sel.snap = Snap.WORD ∨ (bpress cfg now e s).sel.snap = Snap.LINE →
          (bpress cfg now e s).sel.mode = SelMode.READY)
      ∧ ((bpress cfg now e s).sel.snap = Snap.NONE →
          (bpress cfg now e s).sel.mode = SelMode.EMPTY)
      ∧ (s.sel.ob.x ≠ -1 → ∀ i : Nat, i < s.dirty.length →
          s.sel.nb.y ≤ (i : Int) → (i : Int) ≤ s.sel.ne.y →
          (bpress cfg now e s).dirty.getD i false = true)
      ∧ (∀ i : Nat, (bpress cfg now e s).dirty.getD i false = true ↔
          s.dirty.getD i false = true
          ∨ (s.sel.ob.x ≠ -1 ∧ i < s.dirty.length
              ∧ max 0 (min s.sel.nb.y ((s.dirty.length : Int) - 1)) ≤ (i : Int)
              ∧ (i : Int) ≤ max 0 (min s.sel.ne.y ((s.dirty.length : Int) - 1)))
          ∨ (i < s.dirty.length
              ∧ max 0 (min (bpress cfg now e s).sel.nb.y ((s.dirty.length : Int) - 1)) ≤ (i : Int)
              ∧ (i : Int) ≤ max 0 (min (bpress cfg now e s).sel.ne.y
                  ((s.dirty.length : Int) - 1))))
      ∧ ((bpress cfg now e s).sel.nb, (bpress cfg now e s).sel.ne)
          = cfg.normalized { s.sel with
              mode := SelMode.EMPTY, type := SEL_REGULAR
              oe := ⟨cfg.x2col e.x, cfg.y2row e.y⟩, ob := ⟨cfg.x2col e.x, cfg.y2row e.y⟩
              snap := classifySnap cfg now s.sel.tclick1 s.sel.tclick2 })
    ∧ (reported cfg e s = true ∨ (shortcut cfg e).isSome = true →
        (bpress cfg now e s).sel = s.sel) := by
  constructor
  · intro hrep hms hb
    obtain ⟨h1, -, -, h4, h5, h6, h7, -⟩ := bpress_click_sel cfg now e s hrep hms hb
    have hrows := bpress_click_rows cfg now e s hrep hms hb
    have hiff : ∀ i : Nat, (bpress cfg now e s).dirty.getD i false = true ↔
        s.dirty.getD i false = true
        ∨ (s.sel.ob.x ≠ -1 ∧ i < s.dirty.length
            ∧ max 0 (min s.sel.nb.y ((s.dirty.length : Int) - 1)) ≤ (i : Int)
            ∧ (i : Int) ≤ max 0 (min s.sel.ne.y ((s.dirty.length : Int) - 1)))
        ∨ (i < s.dirty.length
            ∧ max 0 (min (bpress cfg now e s).sel.nb.y ((s.dirty.length : Int) - 1)) ≤ (i : Int)
            ∧ (i : Int) ≤ max 0 (min (bpress cfg now e s).sel.ne.y
                ((s.dirty.length : Int) - 1))) := by
      intro i
      rw [hrows, markRows_getD_iff, Nat.zero_add, selclear_, selclear_dirty_length,
        selclear_dirty]
      by_cases hob : s.sel.ob.x = -1
      · simp only [hob, if_true, ne_eq, not_true_eq_false, false_and, false_or]
      · simp only [hob, if_false, ne_eq, not_false_eq_true, true_and]
        rw [markRows_getD_iff, Nat.zero_add, or_assoc]
    refine ⟨?_, h4, h5, h6, ?_, ?_, ?_, hiff, bpress_click_normalized cfg now e s hrep hms hb⟩
    · intro i hi
      obtain ⟨top, bot, hd⟩ := bpress_click_dirty cfg now e s hrep hms hb
      rw [hd]
      exact markRows_getD _ _ _ _ _ hi
    · intro hs
      rw [h7, if_neg]
      rw [← h1]
      rcases hs with hs | hs <;> rw [hs] <;> decide
    · intro hs
      rw [h7, if_pos]
      rw [← h1]
      exact hs
    · intro hob i hi hnb hne
      rw [hiff]
      refine Or.inr (Or.inl ⟨hob, hi, ?_, ?_⟩)
      · omega
      · omega
  · intro h
    by_cases hrep : reported cfg e s = true
    · simp only [bpress, hrep, if_true]
      exact mousereport_sel cfg e s
    · have hms : (shortcut cfg e).isSome = true := by
        rcases h with h | h
        · exact absurd h hrep
        · exact h
      obtain ⟨ms, hms⟩ := Option.isSome_iff_exists.mp hms
      simp [bpress, hrep, hms, ttysend, ttywrite]

theorem bpress_transition_witness :
    (reported cfg0 ⟨ButtonEventType.ButtonPress, 25, 65, 1, 0, 0⟩ stateSelected = false
      ∧ shortcut cfg0 ⟨ButtonEventType.ButtonPress, 25, 65, 1, 0, 0⟩ = none
      ∧ stateSelected.sel.ob.x ≠ -1
      ∧ stateSelected.dirty.getD 0 false = false
      ∧ (bpress cfg0 150 ⟨ButtonEventType.ButtonPress, 25, 65, 1, 0, 0⟩ stateSelected).dirty.getD
          0 false = true
      ∧ (bpress cfg0 150 ⟨ButtonEventType.ButtonPress, 25, 65, 1, 0, 0⟩ stateSelected).sel.ob
          = ⟨2, 3⟩
      ∧ (bpress cfg0 150 ⟨ButtonEventType.ButtonPress, 25, 65, 1, 0, 0⟩ stateSelected).sel.mode
          = SelMode.EMPTY)
    ∧ ((shortcut cfg0 ⟨ButtonEventType.ButtonPress, 25, 65, 4, 0, 0⟩).isSome = true
      ∧ (bpress cfg0 150 ⟨ButtonEventType.ButtonPress, 25, 65, 4, 0, 0⟩ stateSelected).sel
          = stateSelected.sel) :=
  ⟨⟨by decide, by decide, by decide, by decide,
    ((bpress_transition cfg0 150 ⟨ButtonEventType.ButtonPress, 25, 65, 1, 0, 0⟩ stateSelected).1
      (by decide) (by decide) (by decide)).2.2.2.2.2.2.1 (by decide) 0 (by decide) (by decide)
      (by decide),
    ((bpress_transition cfg0 150 ⟨ButtonEventType.ButtonPress, 25, 65, 1, 0, 0⟩ stateSelected).1
      (by decide) (by decide) (by decide)).2.1,
    ((bpress_transition cfg0 150 ⟨ButtonEventType.ButtonPress, 25, 65, 1, 0, 0⟩ stateSelected).1
      (by decide) (by decide) (by decide)).2.2.2.2.2.1 (by decide)⟩,
   ⟨by decide,
    (bpress_transition cfg0 150 ⟨ButtonEventType.ButtonPress, 25, 65, 4, 0, 0⟩ stateSelected).2
      (Or.inr (by decide))⟩⟩

/-! ## Button release -/

theorem selclear_frame (s : State) :
    (selclear s).heap = s.heap ∧ (selclear s).xlog = s.xlog ∧ (selclear s).owners = s.owners
    ∧ (selclear s).win = s.win ∧ (selclear s).sel.primary = s.sel.primary
    ∧ (selclear s).sel.ob.x = -1 := by
  unfold selclear
  split
  · rename_i h; exact ⟨rfl, rfl, rfl, rfl, rfl, h⟩
  · simp [tsetdirt]

theorem deref_alloc (heap : List (Option (List Nat))) (str : List Nat) :
    deref (alloc heap str).1 (alloc heap str).2 = some str := by
  simp [deref, alloc]

theorem free_alloc (heap : List (Option (List Nat))) (str : List Nat) (q : Nat)
    (hq : (deref heap q).isSome = true) :
    ∃ heap', free (alloc heap str).1 q = some heap'
      ∧ deref heap' (alloc heap str).2 = some str := by
  obtain ⟨text, htext⟩ := Option.isSome_iff_exists.mp hq
  have hlt : q < heap.length := by
    by_contra hge
    have : heap[q]? = none := List.getElem?_eq_none (by omega)
    simp [deref, this] at htext
  have hget : heap[q]? = some (some text) := by
    cases h : heap[q]? with
    | none => simp [deref, h] at htext
    | some v => cases v with
      | none => simp [deref, h] at htext
      | some w => simp [deref, h] at htext; rw [htext]
  refine ⟨(heap ++ [some str]).set q none, ?_, ?_⟩
  · simp [free, alloc, List.getElem?_append_left hlt, hget]
  · have hne : q ≠ heap.length := by omega
    simp [deref, alloc, List.getElem?_set, hne]

/-- What `xsetsel` does once the old primary block has been released. -/
theorem xsetsel_spec (X : Server) (str : Option Nat) (t : Nat) (s : State)
    (heap' : List (Option (List Nat)))
    (hfree : (match s.sel.primary with
              | some p => free s.heap p
              | none => some s.heap) = some heap') :
    ∃ s', xsetsel X str t s = some s'
      ∧ s'.heap = heap' ∧ s'.sel.primary = str
      ∧ s'.xlog = s.xlog ++ [XRequest.SetSelectionOwner XA_PRIMARY s.win t]
      ∧ s'.win = s.win
      ∧ (XGetSelectionOwner s' XA_PRIMARY ≠ s.win → s'.sel.ob.x = -1) := by
  simp only [xsetsel, hfree, Option.map_some']
  split
  · rename_i hlost
    obtain ⟨f1, f2, f3, f4, f5, f6⟩ := selclear_frame
      (XSetSelectionOwner X { s with heap := heap', sel := { s.sel with primary := str } }
        XA_PRIMARY s.win t)
    exact ⟨_, rfl, by rw [selclear_, f1]; rfl, by rw [selclear_, f5]; rfl,
      by rw [selclear_, f2]; rfl, by rw [selclear_, f4]; rfl, fun _ => by rw [selclear_, f6]⟩
  · rename_i hkept
    exact ⟨_, rfl, rfl, rfl, rfl, rfl, fun h => absurd h hkept⟩

/-- What `selcopy` does when the old primary pointer is `NULL` or live. -/
theorem selcopy_spec (X : Server) (cfg : Config) (t : Nat) (s : State)
    (hl : live s s.sel.primary = true) :
    ∃ s', selcopy X cfg t s = some s'
      ∧ bufferText s' s'.sel.primary = cfg.getsel s.sel
      ∧ s'.xlog = s.xlog ++ [XRequest.SetSelectionOwner XA_PRIMARY s.win t]
      ∧ s'.win = s.win
      ∧ (XGetSelectionOwner s' XA_PRIMARY ≠ s.win → s'.sel.ob.x = -1) := by
  unfold selcopy
  cases hg : cfg.getsel s.sel with
  | none =>
    have hfree : ∃ heap', (match s.sel.primary with
        | some p => free s.heap p
        | none => some s.heap) = some heap' := by
      cases hp : s.sel.primary with
      | none => exact ⟨_, rfl⟩
      | some q =>
        simp only [live, hp] at hl
        obtain ⟨text, htext⟩ := Option.isSome_iff_exists.mp hl
        cases h : s.heap[q]? with
        | none => simp [deref, h] at htext
        | some v => cases v with
          | none => simp [deref, h] at htext
          | some w => exact ⟨s.heap.set q none, by simp [free, h]⟩
    obtain ⟨heap', hfree⟩ := hfree
    obtain ⟨s', h1, -, h3, h4, h5, h6⟩ := xsetsel_spec X none t s heap' hfree
    exact ⟨s', h1, by simp [bufferText, h3], h4, h5, h6⟩
  | some str =>
    have hfree : ∃ heap', (match s.sel.primary with
        | some p => free (alloc s.heap str).1 p
        | none => some (alloc s.heap str).1) = some heap'
        ∧ deref heap' (alloc s.heap str).2 = some str := by
      cases hp : s.sel.primary with
      | none => exact ⟨_, rfl, deref_alloc s.heap str⟩
      | some q =>
        simp only [live, hp] at hl
        exact free_alloc s.heap str q hl
    obtain ⟨heap', hfree, hd⟩ := hfree
    obtain ⟨s', h1, h2, h3, h4, h5, h6⟩ :=
      xsetsel_spec X (some (alloc s.heap str).2) t { s with heap := (alloc s.heap str).1 }
        heap' hfree
    exact ⟨s', h1, by simp [bufferText, h3, h2, hd], h4, h5, h6⟩

theorem getbuttoninfo_frame (cfg : Config) (e : XButtonEvent) (s : State) :
    (getbuttoninfo cfg e s).heap = s.heap ∧ (getbuttoninfo cfg e s).xlog = s.xlog
    ∧ (getbuttoninfo cfg e s).win = s.win
    ∧ (getbuttoninfo cfg e s).sel.primary = s.sel.primary := by
  simp [getbuttoninfo, selnormalize]

/-- C9: a Button1 release that is not reported leaves the mode IDLE. When the
mode was READY the primary buffer becomes the text `getsel` computes after
`getbuttoninfo`, exactly one request is issued, the ownership claim for PRIMARY
at the event time, and if the owner read back is not this window the selection
is cleared. When the mode was not READY the selection is cleared, and the
primary buffer, the heap and the request log are unchanged (no claim). -/
theorem brelease_transition (X : Server) (cfg : Config) (a : Atoms) (e : XButtonEvent)
    (s : State) (hrep : reported cfg e s = false) (hb : e.button = Button1)
    (hl : live s s.sel.primary = true) :
    ∃ s', brelease X cfg a e s = some s'
      ∧ s'.sel.mode = SelMode.IDLE
      ∧ (s.sel.mode = SelMode.READY →
          bufferText s' s'.sel.primary = cfg.getsel (getbuttoninfo cfg e s).sel
          ∧ s'.xlog = s.xlog ++ [XRequest.SetSelectionOwner XA_PRIMARY s.win e.time]
          ∧ (XGetSelectionOwner s' XA_PRIMARY ≠ s.win → s'.sel.ob.x = -1))
      ∧ (s.sel.mode ≠ SelMode.READY →
          s'.sel.ob.x = -1 ∧ s'.sel.primary = s.sel.primary ∧ s'.heap = s.heap
          ∧ s'.xlog = s.xlog) := by
  have hb2 : e.button ≠ Button2 := by rw [hb]; decide
  by_cases hm : s.sel.mode = SelMode.READY
  · obtain ⟨f1, f2, f3, f4⟩ := getbuttoninfo_frame cfg e s
    have hl' : live (getbuttoninfo cfg e s) (getbuttoninfo cfg e s).sel.primary = true := by
      rw [f4]; simpa [live, f1] using hl
    obtain ⟨s1, h1, h2, h3, h4, h5⟩ := selcopy_spec X cfg e.time (getbuttoninfo cfg e s) hl'
    refine ⟨_, by simp only [brelease, hrep, hb2, hb, hm, h1, if_true, if_false,
      Bool.false_eq_true, Option.map_some']; rfl, ?_, ?_, ?_⟩
    · simp [tsetdirt]
    · intro _
      refine ⟨?_, ?_, ?_⟩
      · simpa [tsetdirt, bufferText] using h2
      · simpa [tsetdirt, f2, f3] using h3
      · intro hlost
        have := h5 (by simpa [tsetdirt, XGetSelectionOwner, f3] using hlost)
        simpa [tsetdirt] using this
    · intro hn; exact absurd hm hn
  · obtain ⟨f1, f2, f3, f4, f5, f6⟩ := selclear_frame s
    refine ⟨_, by simp only [brelease, hrep, hb2, hb, hm, if_true, if_false,
      Bool.false_eq_true, Option.map_some']; rfl, ?_, ?_, ?_⟩
    · simp [tsetdirt]
    · intro h; exact absurd h hm
    · intro _
      simp only [tsetdirt, selclear_]
      exact ⟨f6, f5, f1, f2⟩

theorem brelease_transition_witness :
    reported cfg0 ⟨ButtonEventType.ButtonRelease, 45, 65, 1, 0, 9⟩ stateReady = false
    ∧ (1 : Nat) = Button1
    ∧ live stateReady stateReady.sel.primary = true
    ∧ ∃ s', brelease (xserverRace 5) cfg0 atoms0 ⟨ButtonEventType.ButtonRelease, 45, 65, 1, 0, 9⟩
          stateReady = some s'
      ∧ s'.sel.mode = SelMode.IDLE
      ∧ (stateReady.sel.mode = SelMode.READY →
          bufferText s' s'.sel.primary = cfg0.getsel
            (getbuttoninfo cfg0 ⟨ButtonEventType.ButtonRelease, 45, 65, 1, 0, 9⟩ stateReady).sel
          ∧ s'.xlog = stateReady.xlog ++ [XRequest.SetSelectionOwner XA_PRIMARY stateReady.win 9]
          ∧ (XGetSelectionOwner s' XA_PRIMARY ≠ stateReady.win → s'.sel.ob.x = -1))
      ∧ (stateReady.sel.mode ≠ SelMode.READY →
          s'.sel.ob.x = -1 ∧ s'.sel.primary = stateReady.sel.primary
          ∧ s'.heap = stateReady.heap ∧ s'.xlog = stateReady.xlog) :=
  ⟨by decide, by decide, by decide,
   brelease_transition (xserverRace 5) cfg0 atoms0 ⟨ButtonEventType.ButtonRelease, 45, 65, 1, 0, 9⟩
     stateReady (by decide) (by decide) (by decide)⟩

/-! ## Receiving a selection -/

theorem selnotifyLoop_step (X : Server) (BUFSIZ : Nat) (a : Atoms) (pn : Bool)
    (property : Atom) (fuel ofs : Nat) (s : State) (r : XReply)
    (hread : X.getProperty s.props property ofs (BUFSIZ / 4) = some r)
    (hty : r.type ≠ a.incr) :
    selnotifyLoop X BUFSIZ a pn property (fuel + 1) ofs s =
      if r.rem > 0 then
        selnotifyLoop X BUFSIZ a pn property fuel (ofs + r.units)
          (afterRead BUFSIZ pn property ofs r s)
      else some (XDeleteProperty (afterRead BUFSIZ pn property ofs r s) property) := by
  rw [selnotifyLoop]
  simp only [hread, hty, if_false]
  rfl

theorem afterRead_frame (BUFSIZ : Nat) (pn : Bool) (property : Atom) (ofs : Nat) (r : XReply)
    (s : State) :
    (afterRead BUFSIZ pn property ofs r s).tty = s.tty
        ++ ((if s.mode.brcktpaste && ofs == 0 then pasteBegin else []) ++ r.bytes.map lf2cr
        ++ (if s.mode.brcktpaste && r.rem == 0 then pasteEnd else []))
    ∧ (afterRead BUFSIZ pn property ofs r s).mode = s.mode
    ∧ (afterRead BUFSIZ pn property ofs r s).props = s.props
    ∧ (pn = false → (afterRead BUFSIZ pn property ofs r s).xlog
        = s.xlog ++ [XRequest.GetWindowProperty property ofs (BUFSIZ / 4)]) := by
  simp only [afterRead, ttysend, ttywrite, XChangeWindowAttributes]
  refine ⟨?_, ?_, ?_, ?_⟩
  · split_ifs <;> simp_all
  · split_ifs <;> rfl
  · split_ifs <;> rfl
  · intro h; subst h; split_ifs <;> simp_all

/-- The loop of `selnotify` over a sequence of reads none of which has type
INCR: the bytes written, the requests issued, and what is left unchanged. -/
theorem selnotifyLoop_reads (X : Server) (BUFSIZ : Nat) (a : Atoms) (pn : Bool)
    (property : Atom) (rs : List XReply) :
    ∀ (fuel ofs : Nat) (s : State), rs.length ≤ fuel →
      ReadsFrom X s.props property (BUFSIZ / 4) ofs rs → MoreUntilLast rs →
      (∀ r ∈ rs, r.type ≠ a.incr) →
      ∃ s', selnotifyLoop X BUFSIZ a pn property fuel ofs s = some s'
        ∧ s'.tty = s.tty ++ ((if s.mode.brcktpaste && ofs == 0 then pasteBegin else [])
            ++ pasted rs ++ (if s.mode.brcktpaste then pasteEnd else []))
        ∧ s'.mode = s.mode
        ∧ (pn = false → s'.xlog = s.xlog
            ++ (readOffsets ofs rs).map (fun o => XRequest.GetWindowProperty property o (BUFSIZ / 4))
            ++ [XRequest.DeleteProperty property]) := by
  induction rs with
  | nil => intro fuel ofs s _ _ h; exact absurd h (by simp [MoreUntilLast])
  | cons r rest ih =>
    intro fuel ofs s hfuel hreads hmore htype
    obtain ⟨hread, hrest⟩ := hreads
    have hty : r.type ≠ a.incr := htype r (List.mem_cons_self _ _)
    obtain ⟨g1, g2, g3, g4⟩ := afterRead_frame BUFSIZ pn property ofs r s
    cases fuel with
    | zero => simp at hfuel
    | succ fuel =>
      rw [selnotifyLoop_step X BUFSIZ a pn property fuel ofs s r hread hty]
      cases rest with
      | nil =>
        have hrem : r.rem = 0 := hmore
        rw [if_neg (by omega)]
        refine ⟨_, rfl, ?_, ?_, ?_⟩
        · simp only [XDeleteProperty, g1, hrem, pasted]
          simp
        · simp only [XDeleteProperty, g2]
        · intro hpn
          simp only [XDeleteProperty, g4 hpn, readOffsets]
          simp
      | cons r' rest' =>
        obtain ⟨hrem, hunits, hmore'⟩ := hmore
        rw [if_pos hrem]
        have hreads' : ReadsFrom X (afterRead BUFSIZ pn property ofs r s).props property
            (BUFSIZ / 4) (ofs + r.units) (r' :: rest') := by rw [g3]; exact hrest
        obtain ⟨s', h1, h2, h3, h4⟩ := ih fuel (ofs + r.units)
          (afterRead BUFSIZ pn property ofs r s) (by simpa using hfuel) hreads' hmore'
          (fun x hx => htype x (List.mem_cons_of_mem _ hx))
        refine ⟨s', h1, ?_, by rw [h3, g2], ?_⟩
        · have hpos : (ofs + r.units == 0) = false := by
            simp only [beq_eq_false_iff_ne]; omega
          have hr : (r.rem == 0) = false := by
            simp only [beq_eq_false_iff_ne]; omega
          rw [h2, g1, g2, hpos, hr]
          simp [pasted]
        · intro hpn
          rw [h4 hpn, g4 hpn]
          simp [readOffsets]

/-- C1 fails on the code when bracketed paste is set. One chunk "a\nb" then the
terminator: the chunk is written in its own pair of markers and the empty
terminator in a second pair, where the round trip is specified to write one
pair around the data. Two chunks "a", "b" give three pairs. With bracketed
paste clear the same transfers write the concatenation and no marker. -/
theorem incrTransfer_bracketed_markers :
    stateBrckt.mode.brcktpaste = true
    ∧ (incrTransfer 8192 atoms0 4 XA_PRIMARY [[97, 10, 98]] stateBrckt).map (fun s => s.tty)
        = some (pasteBegin ++ [97, 13, 98] ++ pasteEnd ++ (pasteBegin ++ pasteEnd))
    ∧ incrExpected true [[97, 10, 98]] = pasteBegin ++ [97, 13, 98] ++ pasteEnd
    ∧ (incrTransfer 8192 atoms0 4 XA_PRIMARY [[97], [98]] stateBrckt).map (fun s => s.tty)
        = some (pasteBegin ++ [97] ++ pasteEnd ++ (pasteBegin ++ [98] ++ pasteEnd)
            ++ (pasteBegin ++ pasteEnd))
    ∧ incrExpected true [[97], [98]] = pasteBegin ++ [97, 98] ++ pasteEnd
    ∧ (incrTransfer 8192 atoms0 4 XA_PRIMARY [[97, 10, 98]] state0).map (fun s => s.tty)
        = some [97, 13, 98]
    ∧ (incrTransfer 8192 atoms0 4 XA_PRIMARY [[97], [98]] state0).map (fun s => s.tty)
        = some [97, 98] := by
  decide

/-! ### The chunked transfer -/

/-- The reads by which the documented server hands out a format-8 property from
offset `ofs` on, `len >= 1` units at a time. -/
theorem xserver_reads (props : List (Atom × Property)) (property ty : Atom)
    (data : List Nat) (len : Nat) (hlen : 1 ≤ len)
    (hp : props.lookup property = some ⟨ty, 8, data⟩) :
    ∀ (n ofs : Nat), data.length - 4 * ofs ≤ n → 4 * ofs ≤ data.length →
      ∃ rs, ReadsFrom xserver props property len ofs rs ∧ MoreUntilLast rs
        ∧ (∀ r ∈ rs, r.type = ty)
        ∧ pasted rs = (data.drop (4 * ofs)).map lf2cr
        ∧ rs.length ≤ n + 1 := by
  intro n
  induction n with
  | zero =>
    intro ofs hn hofs
    have hL : min (data.length - 4 * ofs) (4 * len) = 0 := by omega
    refine ⟨[⟨ty, 8, 0, 0, []⟩], ⟨?_, trivial⟩, rfl, by simp, ?_, by simp⟩
    · simp only [xserver, XGetWindowProperty, hp]
      rw [if_neg (by omega)]
      simp only [hL]
      simp
      omega
    · have : data.drop (4 * ofs) = [] := List.drop_eq_nil_of_le (by omega)
      simp [pasted, XReply.bytes, this]
  | succ n ih =>
    intro ofs hn hofs
    by_cases hlast : data.length - 4 * ofs ≤ 4 * len
    · have hL : min (data.length - 4 * ofs) (4 * len) = data.length - 4 * ofs := by omega
      refine ⟨[⟨ty, 8, data.length - 4 * ofs, 0, data.drop (4 * ofs)⟩], ⟨?_, trivial⟩, rfl,
        by simp, ?_, by simp⟩
      · simp only [xserver, XGetWindowProperty, hp]
        rw [if_neg (by omega)]
        simp only [hL]
        simp
        omega
      · simp only [pasted, XReply.bytes, List.map_cons, List.map_nil, List.flatten_cons,
          List.flatten_nil, List.append_nil]
        rw [Nat.mul_div_cancel _ (by norm_num), List.take_of_length_le (by simp)]
    · have hL : min (data.length - 4 * ofs) (4 * len) = 4 * len := by omega
      have hunits : (⟨ty, 8, 4 * len, data.length - (4 * ofs + 4 * len),
          (data.drop (4 * ofs)).take (4 * len)⟩ : XReply).units = len := by
        simp only [XReply.units]; omega
      obtain ⟨rs, h1, h2, h3, h4, h5⟩ := ih (ofs + len) (by omega) (by omega)
      refine ⟨⟨ty, 8, 4 * len, data.length - (4 * ofs + 4 * len),
          (data.drop (4 * ofs)).take (4 * len)⟩ :: rs, ⟨?_, ?_⟩, ?_, ?_, ?_, by simpa using h5⟩
      · simp only [xserver, XGetWindowProperty, hp]
        rw [if_neg (by omega)]
        simp only [hL]
        simp
      · rw [hunits]; exact h1
      · cases rs with
        | nil => exact absurd h2 (by simp [MoreUntilLast])
        | cons r' rs' => exact ⟨by show 0 < data.length - (4 * ofs + 4 * len); omega,
            by rw [hunits]; omega, h2⟩
      · intro r hr
        rcases List.mem_cons.mp hr with h | h
        · rw [h]
        · exact h3 r h
      · have hb : (⟨ty, 8, 4 * len, data.length - (4 * ofs + 4 * len),
            (data.drop (4 * ofs)).take (4 * len)⟩ : XReply).bytes
            = (data.drop (4 * ofs)).take (4 * len) := by
          simp only [XReply.bytes]
          rw [Nat.mul_div_cancel _ (by norm_num), List.take_take]
          simp
        have hsplit : data.drop (4 * ofs)
            = (data.drop (4 * ofs)).take (4 * len) ++ data.drop (4 * (ofs + len)) := by
          rw [show 4 * (ofs + len) = 4 * ofs + 4 * len by ring, ← List.drop_drop]
          exact (List.take_append_drop _ _).symm
        have hp' : pasted (⟨ty, 8, 4 * len, data.length - (4 * ofs + 4 * len),
            (data.drop (4 * ofs)).take (4 * len)⟩ :: rs)
            = ((data.drop (4 * ofs)).take (4 * len)).map lf2cr ++ pasted rs := by
          simp only [pasted, List.map_cons, List.flatten_cons, hb]
        rw [hp', h4]
        conv_rhs => rw [hsplit]
        simp

theorem lookup_peerStore (s : State) (property : Atom) (p : Property) :
    (peerStore s property p).props.lookup property = some p := by
  simp [peerStore, List.lookup]

/-- One PropertyNotify of the transfer: the value the peer stored is written,
wrapped in its own pair of markers when bracketed paste is set. -/
theorem propnotify_chunk (BUFSIZ : Nat) (a : Atoms) (fuel : Nat) (property : Atom)
    (c : List Nat) (s : State) (hbuf : 4 ≤ BUFSIZ) (hty : a.xtarget ≠ a.incr)
    (hprop : property = XA_PRIMARY ∨ property = a.clipboard) (hnn : property ≠ None)
    (hfuel : c.length < fuel) :
    ∃ s', propnotify xserver BUFSIZ a fuel (XEvent.PropertyNotify property PropertyNewValue)
        (peerStore s property ⟨a.xtarget, 8, c⟩) = some s'
      ∧ s'.tty = s.tty ++ wrapped s.mode.brcktpaste c ∧ s'.mode = s.mode := by
  have hlen : 1 ≤ BUFSIZ / 4 := by omega
  obtain ⟨rs, h1, h2, h3, h4, h5⟩ :=
    xserver_reads (peerStore s property ⟨a.xtarget, 8, c⟩).props property a.xtarget c
      (BUFSIZ / 4) hlen (lookup_peerStore s property _) c.length 0 (by omega) (by omega)
  obtain ⟨s', g1, g2, g3, -⟩ :=
    selnotifyLoop_reads xserver BUFSIZ a true property rs fuel 0
      (peerStore s property ⟨a.xtarget, 8, c⟩) (by omega) h1 h2
      (fun r hr => by rw [h3 r hr]; exact hty)
  refine ⟨s', ?_, ?_, g3⟩
  · simp only [propnotify, selnotify, hprop, hnn, true_and, if_true, if_false]
    exact g1
  · rw [g2, h4]
    simp [wrapped, peerStore]

/-- The SelectionNotify that announces chunked mode writes nothing. -/
theorem selnotify_announce (BUFSIZ : Nat) (a : Atoms) (fuel : Nat) (property : Atom)
    (s : State) (hbuf : 4 ≤ BUFSIZ) (hnn : property ≠ None) (hfuel : 1 ≤ fuel) :
    ∃ s', selnotify xserver BUFSIZ a fuel (XEvent.SelectionNotify property)
        (peerStore s property ⟨a.incr, 32, [0, 0, 0, 0]⟩) = some s'
      ∧ s'.tty = s.tty ∧ s'.mode = s.mode := by
  obtain ⟨fuel, rfl⟩ : ∃ f, fuel = f + 1 := ⟨fuel - 1, by omega⟩
  have hL : min 4 (4 * (BUFSIZ / 4)) = 4 := by omega
  have hread : xserver.getProperty (peerStore s property ⟨a.incr, 32, [0, 0, 0, 0]⟩).props
      property 0 (BUFSIZ / 4) = some ⟨a.incr, 32, 1, 0, [0, 0, 0, 0]⟩ := by
    simp only [xserver, XGetWindowProperty, lookup_peerStore]
    simp [hL]
  simp only [selnotify, hnn, if_false]
  rw [selnotifyLoop]
  simp only [hread]
  simp [XDeleteProperty, XChangeWindowAttributes, peerStore]

theorem incrChunks_tty (BUFSIZ : Nat) (a : Atoms) (fuel : Nat) (property : Atom)
    (hbuf : 4 ≤ BUFSIZ) (hty : a.xtarget ≠ a.incr)
    (hprop : property = XA_PRIMARY ∨ property = a.clipboard) (hnn : property ≠ None)
    (chunks : List (List Nat)) :
    ∀ (s : State), (∀ c ∈ chunks, c.length < fuel) →
      ∃ s', incrChunks BUFSIZ a fuel property chunks s = some s'
        ∧ s'.tty = s.tty ++ (chunks.map (wrapped s.mode.brcktpaste)).flatten
        ∧ s'.mode = s.mode := by
  induction chunks with
  | nil => intro s _; exact ⟨s, rfl, by simp, rfl⟩
  | cons c cs ih =>
    intro s hfuel
    obtain ⟨s1, h1, h2, h3⟩ := propnotify_chunk BUFSIZ a fuel property c s hbuf hty hprop hnn
      (hfuel c (List.mem_cons_self _ _))
    obtain ⟨s2, k1, k2, k3⟩ := ih s1 (fun x hx => hfuel x (List.mem_cons_of_mem _ hx))
    refine ⟨s2, ?_, ?_, by rw [k3, h3]⟩
    · simp only [incrChunks, h1, Option.some_bind]
      exact k1
    · rw [k2, h2, h3]
      simp

theorem wrapped_false_flatten (chunks : List (List Nat)) :
    (chunks.map (wrapped false)).flatten = chunks.flatten.map lf2cr := by
  induction chunks with
  | nil => rfl
  | cons c cs ih => simp [wrapped, ih]

theorem wrapped_true_length (chunks : List (List Nat)) :
    ((chunks.map (wrapped true)).flatten).length = 12 * chunks.length + chunks.flatten.length := by
  induction chunks with
  | nil => rfl
  | cons c cs ih =>
    simp only [List.map_cons, List.flatten_cons, List.length_append, ih, List.length_cons]
    simp [wrapped, pasteBegin, pasteEnd]
    omega

/-- What a whole chunked transfer writes, for every list of chunks: each chunk,
and then the empty terminator, in a pair of markers of its own when bracketed
paste is set. With bracketed paste clear this is the concatenation of the
chunks with line feeds replaced; with it set and at least one chunk it is never
the concatenation wrapped once. -/
theorem incrTransfer_tty (BUFSIZ : Nat) (a : Atoms) (fuel : Nat) (property : Atom)
    (chunks : List (List Nat)) (s : State) (hbuf : 4 ≤ BUFSIZ) (hty : a.xtarget ≠ a.incr)
    (hprop : property = XA_PRIMARY ∨ property = a.clipboard) (hnn : property ≠ None)
    (hfuel : 1 ≤ fuel ∧ ∀ c ∈ chunks, c.length < fuel) :
    ∃ s', incrTransfer BUFSIZ a fuel property chunks s = some s'
      ∧ s'.tty = s.tty ++ ((chunks.map (wrapped s.mode.brcktpaste)).flatten
          ++ wrapped s.mode.brcktpaste [])
      ∧ (s.mode.brcktpaste = false → s'.tty = s.tty ++ incrExpected false chunks)
      ∧ (s.mode.brcktpaste = true → chunks ≠ [] →
          s'.tty ≠ s.tty ++ incrExpected true chunks) := by
  obtain ⟨s1, h1, h2, h3⟩ := selnotify_announce BUFSIZ a fuel property s hbuf hnn hfuel.1
  obtain ⟨s2, k1, k2, k3⟩ :=
    incrChunks_tty BUFSIZ a fuel property hbuf hty hprop hnn chunks s1 hfuel.2
  obtain ⟨s3, m1, m2, m3⟩ := propnotify_chunk BUFSIZ a fuel property [] s2 hbuf hty hprop hnn
    (by simpa using hfuel.1)
  have htty : s3.tty = s.tty ++ ((chunks.map (wrapped s.mode.brcktpaste)).flatten
      ++ wrapped s.mode.brcktpaste []) := by
    rw [m2, k2, k3, h2, h3]; simp
  refine ⟨s3, ?_, htty, ?_, ?_⟩
  · simp only [incrTransfer, h1, k1, Option.some_bind]
    exact m1
  · intro hb
    rw [htty, hb, wrapped_false_flatten]
    simp [wrapped, incrExpected]
  · intro hb hne hcon
    rw [htty, hb] at hcon
    have hlen := congrArg List.length (List.append_cancel_left hcon)
    have hpos : 0 < chunks.length := List.length_pos.mpr hne
    simp only [List.length_append, wrapped_true_length, incrExpected, wrapped, if_true,
      List.length_map, pasteBegin, pasteEnd, List.length_cons, List.length_nil] at hlen
    omega

/-! ## Visibility and redraw -/

theorem clear_visible (w : Nat) : (w - (w &&& WIN_VISIBLE)) &&& WIN_VISIBLE = 0 := by
  simp only [WIN_VISIBLE, Nat.and_one_is_mod]
  omega

theorem set_visible (w : Nat) : (w ||| WIN_VISIBLE) &&& WIN_VISIBLE ≠ 0 := by
  have h : (w ||| 1) % 2 = 1 := Nat.or_mod_two_eq_one.mpr (Or.inr rfl)
  simp only [WIN_VISIBLE, Nat.and_one_is_mod]
  omega

theorem drawregion_hidden (R : RenderCfg) (x1 y1 x2 y2 : Nat) (w : View)
    (h : w.winstate &&& WIN_VISIBLE = 0) : drawregion R x1 y1 x2 y2 w = w := by
  simp [drawregion, h]

/-- C14: a visibility event that reports the window fully obscured, and an
unmap event, clear the visible bit of `win.state`; in every state whose visible
bit is clear `drawregion` returns the state as it is, so it issues no drawing
call at all (no batch, no border clear, no cursor) and leaves every dirty flag
as it was; a visibility event that reports any other state sets the bit. -/
theorem drawregion_invisible_noop (R : RenderCfg) (x1 y1 x2 y2 : Nat) (v : View)
    (state : Nat) :
    (visibility VisibilityFullyObscured v).winstate &&& WIN_VISIBLE = 0
    ∧ (unmap v).winstate &&& WIN_VISIBLE = 0
    ∧ (∀ w : View, w.winstate &&& WIN_VISIBLE = 0 →
        drawregion R x1 y1 x2 y2 w = w
        ∧ (drawregion R x1 y1 x2 y2 w).calls = w.calls
        ∧ (drawregion R x1 y1 x2 y2 w).dirty = w.dirty)
    ∧ (state ≠ VisibilityFullyObscured →
        (visibility state v).winstate &&& WIN_VISIBLE ≠ 0) := by
  refine ⟨?_, ?_, ?_, ?_⟩
  · simp only [visibility, MODBIT, bne_self_eq_false, Bool.false_eq_true, if_false]
    exact clear_visible _
  · simp only [unmap, andNot]
    exact clear_visible _
  · intro w h
    rw [drawregion_hidden R x1 y1 x2 y2 w h]
    exact ⟨rfl, rfl, rfl⟩
  · intro h
    have hb : (state != VisibilityFullyObscured) = true := by simpa using h
    simp only [visibility, MODBIT, hb, if_true]
    exact set_visible _

theorem drawregion_invisible_noop_witness :
    (unmap view0).winstate &&& WIN_VISIBLE = 0
    ∧ drawregion render0 0 0 4 2 (unmap view0) = unmap view0
    ∧ (drawregion render0 0 0 4 2 (unmap view0)).calls = []
    ∧ (drawregion render0 0 0 4 2 (unmap view0)).dirty = [true, true]
    ∧ (visibility 1 (unmap view0)).winstate &&& WIN_VISIBLE ≠ 0 :=
  ⟨(drawregion_invisible_noop render0 0 0 4 2 view0 1).2.1,
   ((drawregion_invisible_noop render0 0 0 4 2 view0 1).2.2.1 (unmap view0) (by decide)).1,
   ((drawregion_invisible_noop render0 0 0 4 2 view0 1).2.2.1 (unmap view0) (by decide)).2.1,
   ((drawregion_invisible_noop render0 0 0 4 2 view0 1).2.2.1 (unmap view0) (by decide)).2.2,
   (drawregion_invisible_noop render0 0 0 4 2 (unmap view0) 1).2.2.2 (by decide)⟩

theorem xdrawcursor_calls (R : RenderCfg) (v : View) :
    (xdrawcursor R v).calls = v.calls ++ cursorCalls R v
    ∧ (xdrawcursor R v).dirty = v.dirty ∧ (xdrawcursor R v).sel = v.sel := by
  unfold cursorCalls xdrawcursor
  split <;> simp

/-- The cursor overlay reads neither the dirty flags nor the calls issued so far. -/
theorem cursorCalls_frame (R : RenderCfg) (v : View) (d : List Bool) (c : List DrawCall) :
    cursorCalls R { v with dirty := d, calls := c } = cursorCalls R v := by
  have h1 : eraseCursor R { v with dirty := d, calls := c } = eraseCursor R v := rfl
  have h2 : drawCursor R { v with dirty := d, calls := c } = drawCursor R v := rfl
  unfold cursorCalls xdrawcursor
  simp only [h1, h2]
  split <;> simp

theorem drawRowLoop_row (R : RenderCfg) (v : View) (y : Nat) (cells : List MTGlyph) :
    ∀ (x i ox : Nat) (base : MTGlyph) (specs : List Spec) (n : Nat) (out : List DrawCall),
      ∃ new, drawRowLoop R v y cells x i ox base specs n out = out ++ new
        ∧ ∀ c ∈ new, c.row = some (y : Int) := by
  induction cells with
  | nil =>
    intro x i ox base specs n out
    simp only [drawRowLoop]
    split
    · exact ⟨_, rfl, by simp [DrawCall.row]⟩
    · exact ⟨[], by simp, by simp⟩
  | cons g gs ih =>
    intro x i ox base specs n out
    simp only [drawRowLoop]
    split
    · split
      · exact ih _ _ _ _ _ _ _
      · split
        · obtain ⟨new, h1, h2⟩ := ih (x + 1) 1 x (changedCell R v x y g) (specs.drop i) (n - i)
            (out ++ [DrawCall.glyphs (specs.take i) base i ox y])
          refine ⟨DrawCall.glyphs (specs.take i) base i ox y :: new, by rw [h1]; simp, ?_⟩
          intro c hc
          rcases List.mem_cons.mp hc with h | h
          · rw [h]; rfl
          · exact h2 c h
        · split
          · exact ih _ _ _ _ _ _ _
          · exact ih _ _ _ _ _ _ _
    · split
      · exact ⟨_, rfl, by simp [DrawCall.row]⟩
      · exact ⟨[], by simp, by simp⟩

theorem drawRow_row (R : RenderCfg) (v : View) (x1 x2 y : Nat) :
    ∀ c ∈ drawRow R v x1 x2 y, c.row = some (y : Int) := by
  obtain ⟨new, h1, h2⟩ := drawRowLoop_row R v y (rowCells v x1 x2 y) x1 0 0 ⟨0, 0, 0, 0⟩
    (xmakeglyphfontspecs R (rowCells v x1 x2 y) x1 y)
    (xmakeglyphfontspecs R (rowCells v x1 x2 y) x1 y).length []
  intro c hc
  simp only [drawRow, h1, List.nil_append] at hc
  exact h2 c hc

theorem getD_set_false (d : List Bool) (y z : Nat) :
    (d.set y false).getD z false = if z = y then false else d.getD z false := by
  simp only [List.getD_eq_getElem?_getD, List.getElem?_set]
  by_cases h : y = z
  · subst h
    by_cases hl : y < d.length <;> simp [hl]
  · have h' : ¬ z = y := fun e => h e.symm
    simp [h, h']

/-- The row loop of `drawregion`: flags, calls, and the rest of the state. -/
theorem drawRows_spec (R : RenderCfg) (x1 x2 : Nat) (ys : List Nat) :
    ∀ v : View,
      (∀ z, (drawRows R x1 x2 ys v).dirty.getD z false
          = if z ∈ ys then false else v.dirty.getD z false)
      ∧ (∃ new, (drawRows R x1 x2 ys v).calls = v.calls ++ new
          ∧ ∀ c ∈ new, ∃ y, y ∈ ys ∧ v.dirty.getD y false = true ∧ c.row = some (y : Int))
      ∧ drawRows R x1 x2 ys v = { v with dirty := (drawRows R x1 x2 ys v).dirty,
                                          calls := (drawRows R x1 x2 ys v).calls } := by
  induction ys with
  | nil => intro v; exact ⟨by simp [drawRows], ⟨[], by simp [drawRows], by simp⟩, rfl⟩
  | cons y ys ih =>
    intro v
    by_cases hd : v.dirty.getD y false = true
    · obtain ⟨h1, ⟨new, h2, h3⟩, h4⟩ := ih { v with dirty := v.dirty.set y false, calls := v.calls ++ drawRow R { v with dirty := v.dirty.set y false } x1 x2 y }
      simp only [drawRows, hd, if_true]
      refine ⟨?_, ?_, ?_⟩
      · intro z
        rw [h1 z]
        simp only [getD_set_false, List.mem_cons]
        by_cases hz : z ∈ ys
        · simp [hz]
        · by_cases hzy : z = y <;> simp [hz, hzy]
      · refine ⟨drawRow R { v with dirty := v.dirty.set y false } x1 x2 y ++ new,
          by rw [h2]; simp, ?_⟩
        intro c hc
        rcases List.mem_append.mp hc with h | h
        · exact ⟨y, List.mem_cons_self _ _, hd, drawRow_row R _ x1 x2 y c h⟩
        · obtain ⟨y', hy1, hy2, hy3⟩ := h3 c h
          refine ⟨y', List.mem_cons_of_mem _ hy1, ?_, hy3⟩
          simp only [getD_set_false] at hy2
          by_cases hyy : y' = y
          · rw [hyy]; exact hd
          · simpa [hyy] using hy2
      · rw [h4]
    · obtain ⟨h1, ⟨new, h2, h3⟩, h4⟩ := ih v
      have hd' : v.dirty.getD y false = false := by simpa using hd
      simp only [drawRows, hd', Bool.false_eq_true, if_false]
      refine ⟨?_, ?_, h4⟩
      · intro z
        rw [h1 z]
        by_cases hz : z ∈ ys
        · rw [if_pos hz, if_pos (List.mem_cons_of_mem _ hz)]
        · by_cases hzy : z = y
          · rw [if_neg hz, if_pos (by rw [hzy]; exact List.mem_cons_self _ _), hzy]
            exact hd'
          · rw [if_neg hz, if_neg (by simp [hz, hzy])]
      · refine ⟨new, h2, ?_⟩
        intro c hc
        obtain ⟨y', hy1, hy2, hy3⟩ := h3 c hc
        exact ⟨y', List.mem_cons_of_mem _ hy1, hy2, hy3⟩

/-- C13: after `drawregion(x1, y1, x2, y2)` on a visible window the dirty flag
of every row in `[y1, y2)` is clear and the flag of every other row is as
before; the calls issued are the batches of the row loop followed by the cursor
overlay of `xdrawcursor`, and every batch of the row loop is for a row of
`[y1, y2)` that was dirty before the call, so a clean row gets no batch. The
cursor overlay redraws the old and the new cursor cell whatever the flags. -/
theorem drawregion_dirty_rows (R : RenderCfg) (x1 y1 x2 y2 : Nat) (v : View)
    (hvis : v.winstate &&& WIN_VISIBLE ≠ 0) :
    (∀ y, y1 ≤ y → y < y2 → (drawregion R x1 y1 x2 y2 v).dirty.getD y false = false)
    ∧ (∀ y, (y < y1 ∨ y2 ≤ y) →
        (drawregion R x1 y1 x2 y2 v).dirty.getD y false = v.dirty.getD y false)
    ∧ ∃ batches, (drawregion R x1 y1 x2 y2 v).calls = v.calls ++ batches ++ cursorCalls R v
        ∧ ∀ c ∈ batches, ∃ y : Nat, y1 ≤ y ∧ y < y2 ∧ v.dirty.getD y false = true
            ∧ c.row = some (y : Int) := by
  obtain ⟨h1, ⟨new, h2, h3⟩, h4⟩ := drawRows_spec R x1 x2 (List.range' y1 (y2 - y1)) v
  obtain ⟨c1, c2, -⟩ := xdrawcursor_calls R (drawRows R x1 x2 (List.range' y1 (y2 - y1)) v)
  have hmem : ∀ y, y ∈ List.range' y1 (y2 - y1) ↔ y1 ≤ y ∧ y < y2 := by
    intro y
    simp only [List.mem_range'_1]
    omega
  simp only [drawregion, hvis, if_false]
  refine ⟨?_, ?_, ?_⟩
  · intro y hy1 hy2
    rw [c2, h1 y, if_pos ((hmem y).mpr ⟨hy1, hy2⟩)]
  · intro y hy
    rw [c2, h1 y, if_neg (fun hm => by have := (hmem y).mp hm; omega)]
  · refine ⟨new, ?_, ?_⟩
    · rw [c1, h2, h4, cursorCalls_frame]
    · intro c hc
      obtain ⟨y, hy1, hy2, hy3⟩ := h3 c hc
      exact ⟨y, ((hmem y).mp hy1).1, ((hmem y).mp hy1).2, hy2, hy3⟩

theorem drawregion_dirty_rows_witness :
    view0.winstate &&& WIN_VISIBLE ≠ 0
    ∧ (∀ y, 0 ≤ y → y < 2 → (drawregion render0 0 0 4 2 view0).dirty.getD y false = false)
    ∧ (∀ y, (y < 0 ∨ 2 ≤ y) →
        (drawregion render0 0 0 4 2 view0).dirty.getD y false = view0.dirty.getD y false)
    ∧ ∃ batches, (drawregion render0 0 0 4 2 view0).calls
          = view0.calls ++ batches ++ cursorCalls render0 view0
        ∧ ∀ c ∈ batches, ∃ y : Nat, 0 ≤ y ∧ y < 2 ∧ view0.dirty.getD y false = true
            ∧ c.row = some (y : Int) :=
  ⟨by decide, drawregion_dirty_rows render0 0 0 4 2 view0 (by decide)⟩

/-! ## Selection highlight and the alternate screen -/

theorem drawRowLoop_congr (R : RenderCfg) (v v' : View) (y : Nat)
    (h : ∀ (x : Nat) (g : MTGlyph), changedCell R v x y g = changedCell R v' x y g)
    (cells : List MTGlyph) :
    ∀ (x i ox : Nat) (base : MTGlyph) (specs : List Spec) (n : Nat) (out : List DrawCall),
      drawRowLoop R v y cells x i ox base specs n out
        = drawRowLoop R v' y cells x i ox base specs n out := by
  induction cells with
  | nil => intro x i ox base specs n out; rfl
  | cons g gs ih =>
    intro x i ox base specs n out
    simp only [drawRowLoop, h, ih]

theorem drawRow_congr (R : RenderCfg) (v v' : View) (x1 x2 y : Nat) (hl : v'.line = v.line)
    (h : ∀ (x : Nat) (g : MTGlyph), changedCell R v x y g = changedCell R v' x y g) :
    drawRow R v x1 x2 y = drawRow R v' x1 x2 y := by
  simp only [drawRow, rowCells, hl]
  exact drawRowLoop_congr R v v' y h _ _ _ _ _ _ _ _

theorem drawregion_sel (R : RenderCfg) (x1 y1 x2 y2 : Nat) (v : View) :
    (drawregion R x1 y1 x2 y2 v).sel = v.sel
    ∧ (drawregion R x1 y1 x2 y2 v).altscreen = v.altscreen := by
  unfold drawregion
  split
  · exact ⟨rfl, rfl⟩
  · have h := (drawRows_spec R x1 x2 (List.range' y1 (y2 - y1)) v).2.2
    constructor
    · rw [(xdrawcursor_calls R _).2.2, h]
    · unfold xdrawcursor
      split <;> (simp only; rw [h])

/-- C11: `drawregion` draws a cell with the reverse bit flipped exactly when it
is highlighted, and a cell is highlighted only if a selection exists
(`sel.ob.x != -1`), the selection's alt-screen flag equals the terminal's, and
the cell is selected. So with a selection recorded on the primary screen and the
terminal on the alternate screen no cell is highlighted and every dirty row is
drawn as if no selection existed; any later state with the same selection and
the terminal back on the primary screen highlights the same cells as before;
and `drawregion` itself changes neither the selection nor the screen flag. -/
theorem highlight_alt_screen_guard (R : RenderCfg) (v : View) :
    (∀ x y g, changedCell R v x y g
        = if highlighted R v x y then { g with mode := g.mode ^^^ ATTR_REVERSE } else g)
    ∧ (∀ x y, highlighted R v x y = true →
        v.sel.ob.x ≠ -1 ∧ v.sel.alt = v.altscreen ∧ R.selected v.sel x y = true)
    ∧ (v.sel.alt = false → v.altscreen = true →
        (∀ x y, highlighted R v x y = false)
        ∧ ∀ x1 x2 y, drawRow R v x1 x2 y = drawRow R (noSelection v) x1 x2 y)
    ∧ (∀ v' : View, v'.sel = v.sel → v'.altscreen = v.altscreen →
        ∀ x y, highlighted R v' x y = highlighted R v x y)
    ∧ (∀ x1 y1 x2 y2, (drawregion R x1 y1 x2 y2 v).sel = v.sel
        ∧ (drawregion R x1 y1 x2 y2 v).altscreen = v.altscreen) := by
  refine ⟨fun x y g => rfl, ?_, ?_, ?_, fun x1 y1 x2 y2 => drawregion_sel R x1 y1 x2 y2 v⟩
  · intro x y h
    simp only [highlighted, ena_sel, Bool.and_eq_true, bne_iff_ne, ne_eq, beq_iff_eq] at h
    exact ⟨h.1.1, h.1.2, h.2⟩
  · intro ha hs
    have hno : ∀ x y, highlighted R v x y = false := by
      intro x y
      simp [highlighted, ena_sel, ha, hs]
    refine ⟨hno, fun x1 x2 y => ?_⟩
    apply drawRow_congr R v (noSelection v) x1 x2 y rfl
    intro x g
    have h1 : changedCell R v x y g = g := by
      have := hno x y
      simp only [highlighted] at this
      simp [changedCell, this]
    have h2 : changedCell R (noSelection v) x y g = g := by
      simp [changedCell, ena_sel, noSelection]
    rw [h1, h2]
  · intro v' hsel halt x y
    simp only [highlighted, ena_sel, hsel, halt]

theorem highlight_alt_screen_guard_witness :
    (highlighted render0 view0 1 0 = true ∧ highlighted render0 view0 0 0 = false)
    ∧ ((∀ x y, highlighted render0 { view0 with altscreen := true } x y = false)
      ∧ ∀ x1 x2 y, drawRow render0 { view0 with altscreen := true } x1 x2 y
          = drawRow render0 (noSelection { view0 with altscreen := true }) x1 x2 y)
    ∧ (∀ x y, highlighted render0 { view0 with dirty := [true, true], cx := 0 } x y
        = highlighted render0 view0 x y) :=
  ⟨⟨by decide, by decide⟩,
   (highlight_alt_screen_guard render0 { view0 with altscreen := true }).2.2.1 rfl rfl,
   (highlight_alt_screen_guard render0 view0).2.2.2.1
     { view0 with dirty := [true, true], cx := 0 } rfl rfl⟩

/-! ## Clipboard commit with a primary buffer -/

theorem getElem?_of_deref {heap : List (Option (List Nat))} {p : Nat} {text : List Nat}
    (h : deref heap p = some text) : heap[p]? = some (some text) ∧ p < heap.length := by
  have hget : heap[p]? = some (some text) := by
    cases hh : heap[p]? with
    | none => simp [deref, hh] at h
    | some v => cases v with
      | none => simp [deref, hh] at h
      | some w => simp [deref, hh] at h; rw [h]
  refine ⟨hget, ?_⟩
  by_contra hge
  have : heap[p]? = none := List.getElem?_eq_none (by omega)
  rw [this] at hget
  exact absurd hget (by simp)

theorem deref_free_other {heap heap' : List (Option (List Nat))} {p q : Nat}
    (hf : free heap p = some heap') (hne : q ≠ p) : deref heap' q = deref heap q := by
  unfold free at hf
  split at hf
  · simp only [Option.some.injEq] at hf
    subst hf
    simp [deref, List.getElem?_set, hne.symm]
  · exact absurd hf (by simp)

theorem free_of_deref {heap : List (Option (List Nat))} {p : Nat} {text : List Nat}
    (h : deref heap p = some text) : free heap p = some (heap.set p none) := by
  simp [free, (getElem?_of_deref h).1]

/-- C16: with the primary buffer holding `text` (and the clipboard pointer
`NULL` or live, and not the primary block), `xclipcopy` leaves the primary
buffer as it is, makes the clipboard hold `text` in a block of its own, and
issues exactly one request, the ownership claim for CLIPBOARD; releasing either
block afterwards, as a later replacement does, leaves the other buffer's text
in place. -/
theorem xclipcopy_copies_primary (X : Server) (a : Atoms) (s : State) (p : Nat)
    (text : List Nat) (hp : s.sel.primary = some p) (htext : deref s.heap p = some text)
    (hc : live s s.sel.clipboard = true) (hne : s.sel.clipboard ≠ some p) :
    ∃ s' q, xclipcopy X a s = some s'
      ∧ s'.sel.clipboard = some q ∧ deref s'.heap q = some text
      ∧ s'.sel.primary = some p ∧ deref s'.heap p = some text
      ∧ q ≠ p
      ∧ s'.xlog = s.xlog ++ [XRequest.SetSelectionOwner a.clipboard s.win CurrentTime]
      ∧ (∀ heap', free s'.heap p = some heap' → deref heap' q = some text)
      ∧ (∀ heap', free s'.heap q = some heap' → deref heap' p = some text) := by
  obtain ⟨hget, hlt⟩ := getElem?_of_deref htext
  -- the heap after `free(sel.clipboard)`
  have hfree : ∃ heap1, (match s.sel.clipboard with
      | some c => free s.heap c
      | none => some s.heap) = some heap1
      ∧ deref heap1 p = some text ∧ heap1.length = s.heap.length := by
    cases hcl : s.sel.clipboard with
    | none => exact ⟨s.heap, rfl, htext, rfl⟩
    | some c =>
      simp only [live, hcl] at hc
      obtain ⟨t, ht⟩ := Option.isSome_iff_exists.mp hc
      have hcp : p ≠ c := fun e => hne (by rw [hcl, e])
      refine ⟨s.heap.set c none, free_of_deref ht, ?_, by simp⟩
      rw [deref_free_other (free_of_deref ht) hcp]
      exact htext
  obtain ⟨heap1, h1, h2, h3⟩ := hfree
  have hq : heap1.length ≠ p := by omega
  have hd1 : deref (heap1 ++ [some text]) heap1.length = some text := by
    simp [deref]
  have hd2 : deref (heap1 ++ [some text]) p = some text := by
    have : (heap1 ++ [some text])[p]? = heap1[p]? :=
      List.getElem?_append_left (by omega)
    simpa [deref, this] using h2
  refine ⟨XSetSelectionOwner X
      { s with
        heap := heap1 ++ [some text]
        sel := { s.sel with clipboard := some heap1.length } } a.clipboard s.win CurrentTime,
    heap1.length, ?_, rfl, ?_, ?_, ?_, hq, ?_, ?_, ?_⟩
  · simp only [xclipcopy, h1, Option.some_bind, hp, xstrdup, h2, Option.map_some', alloc]
  · exact hd1
  · simpa [XSetSelectionOwner] using hp
  · exact hd2
  · simp [XSetSelectionOwner]
  · intro heap' hf
    have hf' : free (heap1 ++ [some text]) p = some heap' := hf
    rw [deref_free_other hf' hq]
    exact hd1
  · intro heap' hf
    have hf' : free (heap1 ++ [some text]) heap1.length = some heap' := hf
    rw [deref_free_other hf' (Ne.symm hq)]
    exact hd2

theorem xclipcopy_copies_primary_witness :
    stateBoth.sel.primary = some 1 ∧ deref stateBoth.heap 1 = some [104, 105]
    ∧ live stateBoth stateBoth.sel.clipboard = true ∧ stateBoth.sel.clipboard ≠ some 1
    ∧ ∃ s' q, xclipcopy xserver atoms0 stateBoth = some s'
      ∧ s'.sel.clipboard = some q ∧ deref s'.heap q = some [104, 105]
      ∧ s'.sel.primary = some 1 ∧ deref s'.heap 1 = some [104, 105]
      ∧ q ≠ 1
      ∧ s'.xlog = stateBoth.xlog
          ++ [XRequest.SetSelectionOwner atoms0.clipboard stateBoth.win CurrentTime]
      ∧ (∀ heap', free s'.heap 1 = some heap' → deref heap' q = some [104, 105])
      ∧ (∀ heap', free s'.heap q = some heap' → deref heap' 1 = some [104, 105]) :=
  ⟨by decide, by decide, by decide, by decide,
   xclipcopy_copies_primary xserver atoms0 stateBoth 1 [104, 105] (by decide) (by decide)
     (by decide) (by decide)⟩

/-! ## Cursor -/

/-- The block shapes of a focused cursor: the call drawn, for every state. The
character is the one at the cursor column and the call is at the cursor column;
only the wide bit is taken from the adjusted column. -/
theorem drawCursor_block (R : RenderCfg) (v : View) (hf : v.winstate &&& WIN_FOCUSED ≠ 0)
    (hc : v.cursor = 0 ∨ v.cursor = 1 ∨ v.cursor = 2) :
    drawCursor R v = [xdrawglyph R
        { cursorGlyph R v with
          mode := (cursorGlyph R v).mode ||| ((cellAt v (cursorColumn v) v.cy).mode &&& ATTR_WIDE) }
        v.cx v.cy]
    ∧ (cursorGlyph R v).u = (cellAt v v.cx v.cy).u := by
  have h7 : v.cursor ≠ 7 := by omega
  constructor
  · simp only [drawCursor, hf, h7, hc, if_true, if_false, ne_eq, not_false_eq_true, or_true]
  · simp only [cursorGlyph]
    split_ifs <;> rfl

/-- C17 fails on the code for the block shapes. The cursor is on the placeholder
at column 3 of a wide character stored at column 2. The adjusted column is 2,
and the underline and bar shapes are drawn there; the steady block is drawn by
a call at column 3 whose character is the placeholder's (0), not the wide
character 12354 of column 2. -/
theorem xdrawcursor_block_on_placeholder :
    view0.winstate &&& WIN_FOCUSED ≠ 0 ∧ view0.cursor = 2
    ∧ (view0.cx, view0.cy) = (3, 0)
    ∧ (cellAt view0 3 0).mode &&& ATTR_WDUMMY ≠ 0
    ∧ cursorColumn view0 = 2
    ∧ (cellAt view0 2 0).u = 12354
    ∧ drawCursor render0 view0
        = [DrawCall.glyphs [⟨0, 0, 32, 17⟩] ⟨0, ATTR_WIDE, 0, 256⟩ 1 3 0]
    ∧ (xdrawcursor render0 view0).calls
        = [DrawCall.glyphs [⟨120, 1, 2, 37⟩] ⟨120, ATTR_BOLD, 1, 0⟩ 1 0 1,
           DrawCall.glyphs [⟨0, 0, 32, 17⟩] ⟨0, ATTR_WIDE, 0, 256⟩ 1 3 0]
    ∧ drawCursor render0 { view0 with cursor := 4 }
        = [DrawCall.rect (ColorRef.palette 256) 22 20 10 2]
    ∧ drawCursor render0 { view0 with cursor := 6 }
        = [DrawCall.rect (ColorRef.palette 256) 22 2 2 20] := by
  decide

/-! ## Bright bold -/

theorem bold_faint_bits (m : Nat) :
    (m &&& ATTR_BOLD_FAINT = ATTR_BOLD) ↔ (m &&& ATTR_BOLD ≠ 0 ∧ m &&& ATTR_FAINT = 0) := by
  have h3 : m &&& 3 = m % 4 := Nat.and_pow_two_sub_one_eq_mod m 2
  have h1 : m &&& 1 = m % 4 &&& 1 := by
    rw [← h3, Nat.and_assoc, show (3 &&& 1 : Nat) = 1 by decide]
  have h2 : m &&& 2 = m % 4 &&& 2 := by
    rw [← h3, Nat.and_assoc, show (3 &&& 2 : Nat) = 2 by decide]
  simp only [ATTR_BOLD_FAINT, ATTR_BOLD, ATTR_FAINT]
  rw [h3, h1, h2]
  have hlt : m % 4 < 4 := Nat.mod_lt _ (by norm_num)
  generalize m % 4 = k at hlt
  interval_cases k <;> decide

theorem BETWEEN_0_7 (n : Nat) : BETWEEN (n : Int) 0 7 = true ↔ n ≤ 7 := by
  simp only [BETWEEN, Bool.and_eq_true, decide_eq_true_eq]
  omega

/-- C18: before any reverse handling the foreground of a batch is palette entry
`fg + 8` exactly when the base cell has bold set, faint clear and a palette
foreground in 0..7; for every other cell it is the cell's own palette entry, or
the decoded colour when the foreground is a true colour; the background is the
cell's own palette entry or decoded colour, never remapped. With no reverse
mode and no reverse, faint, blink or invisible attribute these are the colours
`xdrawglyphfontspecs` draws with. -/
theorem baseFg_bright_bold (base : MTGlyph) :
    (baseFg base = ColorRef.palette (base.fg + 8) ↔ brightBold base)
    ∧ (¬ brightBold base →
        baseFg base = if IS_TRUECOL base.fg then ColorRef.value (trueColor base.fg)
                      else ColorRef.palette base.fg)
    ∧ baseBg base = (if IS_TRUECOL base.bg then ColorRef.value (trueColor base.bg)
                     else ColorRef.palette base.bg)
    ∧ (∀ (R : RenderCfg) (v : View) (dc : List XRenderColor),
        v.reverse = false → v.blink = false → base.mode &&& ATTR_REVERSE = 0 →
        base.mode &&& ATTR_BOLD_FAINT ≠ ATTR_FAINT → base.mode &&& ATTR_INVISIBLE = 0 →
        glyphColors R v dc base = (baseFg base, baseBg base)) := by
  have hcond : ((base.mode &&& ATTR_BOLD_FAINT) = ATTR_BOLD ∧ BETWEEN base.fg 0 7 = true)
      ↔ brightBold base := by
    rw [bold_faint_bits, BETWEEN_0_7]
    simp only [brightBold, and_assoc]
  refine ⟨?_, ?_, rfl, ?_⟩
  · constructor
    · intro h
      by_contra hn
      have hn' := (not_congr hcond).mpr hn
      simp only [baseFg, hn', if_false] at h
      split at h
      · exact absurd h (by simp)
      · have : base.fg = base.fg + 8 := by simp at h
        omega
    · intro h
      have hc := hcond.mpr h
      simp only [baseFg]
      rw [if_pos hc]
  · intro hn
    have hn' := (not_congr hcond).mpr hn
    simp only [baseFg, hn', if_false]
  · intro R v dc hr hb hrev hfaint hinv
    simp [glyphColors, hr, hb, hrev, hfaint, hinv]

theorem baseFg_bright_bold_witness :
    (baseFg ⟨120, ATTR_BOLD, 1, 0⟩ = ColorRef.palette 9 ∧ brightBold ⟨120, ATTR_BOLD, 1, 0⟩)
    ∧ (¬ brightBold ⟨120, ATTR_BOLD ||| ATTR_FAINT, 1, 0⟩
      ∧ baseFg ⟨120, ATTR_BOLD ||| ATTR_FAINT, 1, 0⟩ = ColorRef.palette 1)
    ∧ baseFg ⟨120, ATTR_BOLD, 16777216 + 255, 0⟩
        = ColorRef.value (trueColor (16777216 + 255))
    ∧ baseFg ⟨120, ATTR_BOLD, 12, 0⟩ = ColorRef.palette 12 :=
  ⟨⟨(baseFg_bright_bold ⟨120, ATTR_BOLD, 1, 0⟩).1.mpr (by decide), by decide⟩,
   ⟨by decide, (baseFg_bright_bold ⟨120, ATTR_BOLD ||| ATTR_FAINT, 1, 0⟩).2.1 (by decide)⟩,
   (baseFg_bright_bold ⟨120, ATTR_BOLD, 16777216 + 255, 0⟩).2.1 (by decide),
   (baseFg_bright_bold ⟨120, ATTR_BOLD, 12, 0⟩).2.1 (by decide)⟩

/-! ## Colour table -/

theorem BETWEEN_iff (x a b : Int) : BETWEEN x a b = true ↔ a ≤ x ∧ x ≤ b := by
  simp [BETWEEN]

/-- What `xsetcolorname` does for every index: outside `0 .. collen` it returns
1 and the table is as before; a return of 0 means the index was a slot and
only that slot was replaced; at `collen` itself, where `BETWEEN(x, 0, collen)`
still holds, a colour that loads is written past the end of the table. -/
theorem xsetcolorname_cases (C : ColorCfg) (x : Int) (name : Option (List Nat))
    (col : List Color) :
    ((x < 0 ∨ (col.length : Int) < x) → xsetcolorname C x name col = SetColor.returned 1 col)
    ∧ (∀ col', xsetcolorname C x name col = SetColor.returned 0 col' →
        0 ≤ x ∧ x < col.length
        ∧ ∃ ncolor, xloadcolor C x name = some ncolor ∧ col' = col.set x.toNat ncolor)
    ∧ (∀ ncolor, x = col.length → xloadcolor C x name = some ncolor →
        xsetcolorname C x name col = SetColor.outside x ncolor) := by
  refine ⟨?_, ?_, ?_⟩
  · intro h
    have hb : BETWEEN x 0 col.length = false := by
      rw [Bool.eq_false_iff, ne_eq, BETWEEN_iff]
      omega
    simp [xsetcolorname, hb]
  · intro col' h
    unfold xsetcolorname at h
    split at h
    · simp at h
    · rename_i hb
      have hb' : BETWEEN x 0 col.length = true := by simpa using hb
      obtain ⟨h0, -⟩ := (BETWEEN_iff _ _ _).mp hb'
      split at h
      · simp at h
      · rename_i ncolor hload
        split at h
        · rename_i hlt
          simp only [SetColor.returned.injEq, true_and] at h
          exact ⟨h0, by omega, ncolor, hload, h.symm⟩
        · simp at h
  · intro ncolor hx hload
    have hb : BETWEEN x 0 col.length = true := by
      rw [BETWEEN_iff]; omega
    have hnlt : ¬ x.toNat < col.length := by omega
    simp [xsetcolorname, hb, hload, hnlt]

/-- C19 fails on the code at `x == collen`. With a table of 256 colours,
`xsetcolorname(256, "red")` passes the guard `BETWEEN(x, 0, dc.collen)`, loads
the colour, and frees and overwrites `dc.col[256]`, one slot past the end of
the table, where it should return 1 and leave the table alone. For 257 and
for -1 it returns 1, for 255 it replaces slot 255 and returns 0. -/
theorem xsetcolorname_at_collen :
    table0.length = 256
    ∧ xsetcolorname colors0 256 (some [114, 101, 100]) table0
        = SetColor.outside 256 ⟨2, ⟨65535, 0, 0, some 65535⟩⟩
    ∧ xsetcolorname colors0 257 (some [114, 101, 100]) table0 = SetColor.returned 1 table0
    ∧ xsetcolorname colors0 (-1) (some [114, 101, 100]) table0 = SetColor.returned 1 table0
    ∧ xsetcolorname colors0 255 (some [114, 101, 100]) table0
        = SetColor.returned 0 (table0.set 255 ⟨2, ⟨65535, 0, 0, some 65535⟩⟩) := by
  have hlen : table0.length = 256 := List.length_replicate _ _
  refine ⟨hlen, ?_, ?_, ?_, ?_⟩
  · have h := (xsetcolorname_cases colors0 256 (some [114, 101, 100]) table0).2.2
      ⟨2, ⟨65535, 0, 0, some 65535⟩⟩ (by rw [hlen]; rfl) rfl
    exact h
  · exact (xsetcolorname_cases colors0 257 (some [114, 101, 100]) table0).1
      (Or.inr (by rw [hlen]; decide))
  · exact (xsetcolorname_cases colors0 (-1) (some [114, 101, 100]) table0).1
      (Or.inl (by decide))
  · simp [xsetcolorname, BETWEEN, hlen, xloadcolor, colors0]

/-! ## Event loop timing -/

/-- The wait `run` computes when blink is set, as a number of nanoseconds: the
time left until the next toggle while some is left, zero when the elapsed time
equals `blinktimeout`, and 1000 only when more than `blinktimeout` has elapsed. -/
theorem blinkWait_nanoseconds (C : RunCfg) (now lastblink : Int) :
    (TIMEDIFF now lastblink ≤ C.blinktimeout →
      (blinkWait C now lastblink).tv_sec * 1000000000 + (blinkWait C now lastblink).tv_nsec
        = 1000000 * (C.blinktimeout - TIMEDIFF now lastblink))
    ∧ (TIMEDIFF now lastblink = C.blinktimeout → blinkWait C now lastblink = ⟨0, 0⟩)
    ∧ (C.blinktimeout < TIMEDIFF now lastblink → blinkWait C now lastblink = ⟨0, 1000⟩) := by
  refine ⟨?_, ?_, ?_⟩
  · intro h
    simp only [blinkWait]
    rw [if_neg (by omega)]
    exact Int.ediv_add_emod' _ _
  · intro h
    simp only [blinkWait]
    rw [if_neg (by omega), h, sub_self, mul_zero, Int.zero_ediv, Int.zero_emod]
  · intro h
    simp only [blinkWait]
    rw [if_pos (by omega)]
    norm_num

theorem afterDraw_idle (C : RunCfg) (now : Int) (l : Loop) :
    (afterDraw C false false now l).tv
        = (if l.blinkset then some (blinkWait C now l.lastblink) else none)
    ∧ (afterDraw C false false now l).lastblink = l.lastblink
    ∧ (afterDraw C false false now l).draws = l.draws := by
  unfold afterDraw
  simp only [and_self, if_true]
  split_ifs <;> exact ⟨rfl, rfl, rfl⟩

theorem afterSelect_idle (C : RunCfg) (tattr : Bool) (l : Loop) :
    afterSelect C false false tattr l = { l with tv := some ⟨0, (1000 * 1000000) / C.xfps⟩ } := by
  simp [afterSelect]

/-- An iteration of `run` with neither descriptor ready in which a redraw is
done: with blink set the next wait is `blinkWait` of the time since the last
toggle, which is at most `blinktimeout`; with blink clear the wait has no
timeout. -/
theorem tick_idle_wait (C : RunCfg) (tattr : Bool) (now : Int) (l : Loop)
    (hbt : 0 < C.blinktimeout)
    (hdraw : (tick C false false tattr now l).draws = l.draws + 1) :
    (l.blinkset = true →
      (tick C false false tattr now l).tv
          = some (blinkWait C now (tick C false false tattr now l).lastblink)
      ∧ TIMEDIFF now (tick C false false tattr now l).lastblink ≤ C.blinktimeout)
    ∧ (l.blinkset = false → (tick C false false tattr now l).tv = none) := by
  have hne : C.blinktimeout ≠ 0 := by omega
  unfold tick at hdraw ⊢
  rw [afterSelect_idle] at hdraw ⊢
  simp only at hdraw ⊢
  cases hbk : blinkDue C now { l with tv := some ⟨0, (1000 * 1000000) / C.xfps⟩ }
  · -- no toggle: at most `blinktimeout` has elapsed
    have hle : TIMEDIFF now l.lastblink ≤ C.blinktimeout := by
      simp only [blinkDue, decide_eq_false_iff_not, not_and, not_lt, gt_iff_lt] at hbk
      exact hbk hne
    simp only [hbk, Bool.false_eq_true, if_false, Bool.false_or] at hdraw ⊢
    cases hdu : frameDue C now { l with tv := some ⟨0, (1000 * 1000000) / C.xfps⟩ }
    · simp only [hdu, Bool.false_eq_true, if_false] at hdraw
      omega
    · simp only [hdu, if_true]
      obtain ⟨a1, a2, -⟩ := afterDraw_idle C now
        { l with tv := some ⟨0, (1000 * 1000000) / C.xfps⟩, last := now, draws := l.draws + 1 }
      refine ⟨fun hs => ⟨?_, ?_⟩, fun hs => ?_⟩
      · rw [a1, a2]; simp only [hs, if_true]
      · rw [a2]; exact hle
      · rw [a1]; simp only [hs, Bool.false_eq_true, if_false]
  · simp only [hbk, if_true, Bool.true_or]
    have hzero : TIMEDIFF now now ≤ C.blinktimeout := by simp only [TIMEDIFF]; omega
    cases hdu : frameDue C now
        { l with tv := some ⟨0, (1000 * 1000000) / C.xfps⟩, blinkmode := !l.blinkmode,
                 lastblink := now }
    · simp only [Bool.false_eq_true, if_false]
      obtain ⟨a1, a2, -⟩ := afterDraw_idle C now
        { l with tv := some ⟨0, (1000 * 1000000) / C.xfps⟩, blinkmode := !l.blinkmode,
                 lastblink := now, draws := l.draws + 1 }
      refine ⟨fun hs => ⟨?_, ?_⟩, fun hs => ?_⟩
      · rw [a1, a2]; simp only [hs, if_true]
      · rw [a2]; exact hzero
      · rw [a1]; simp only [hs, Bool.false_eq_true, if_false]
    · simp only [if_true]
      obtain ⟨a1, a2, -⟩ := afterDraw_idle C now
        { l with tv := some ⟨0, (1000 * 1000000) / C.xfps⟩, blinkmode := !l.blinkmode,
                 lastblink := now, last := now, draws := l.draws + 1 }
      refine ⟨fun hs => ⟨?_, ?_⟩, fun hs => ?_⟩
      · rw [a1, a2]; simp only [hs, if_true]
      · rw [a2]; exact hzero
      · rw [a1]; simp only [hs, Bool.false_eq_true, if_false]

/-- C15 fails on the code when the elapsed time equals `blinktimeout`. Blink is
set, `blinktimeout` is 800 ms, the last toggle was at time 0 and the clock reads
800: no toggle is due (800 > 800 is false), a frame is due, neither descriptor
is ready, and the next wait is set to 0 s 0 ns. One millisecond earlier the
wait is the remaining 1 ms; with blink clear there is no timeout. -/
theorem tick_zero_wait_at_blinktimeout :
    run0.blinktimeout = 800 ∧ loop0.blinkset = true
    ∧ TIMEDIFF 800 loop0.lastblink = run0.blinktimeout
    ∧ (tick run0 false false false 800 loop0).draws = loop0.draws + 1
    ∧ (tick run0 false false false 800 loop0).tv = some ⟨0, 0⟩
    ∧ (tick run0 false false false 799 loop0).tv = some ⟨0, 1000000⟩
    ∧ (tick run0 false false false 800 { loop0 with blinkset := false }).tv = none := by
  decide

/-! ## Coalescing is lossless -/

end Mt
